import Mathlib

/-!
Verification of the MCCompiler toolchain (MCL compiler + 16-bit virtual machine).

This file gives a shallow embedding, in Lean, of the parts of the source that
the checked properties speak about:

  * `src/vm/memory.py`     — the `Memory` MMU (`write`, `_get_region`);
  * `src/vm/gpu.py`        — the dual-buffer GPU (buffer selection, drawing
                             command set);
  * `src/vm/cpu.py`        — the CPU (registers, operand resolution, the full
                             instruction handler table, `step`, the input ring
                             buffer);
  * `src/vm/assembly_loader.py` — the two-pass assembly text loader;
  * `src/compiler/symbol_table.py` — the `MemoryManager` segregated free-list
                             allocator and the `RegisterAllocator` bi-maps.

Machine integers are modelled as `Int`/`Nat` with explicit masking (`% 2^16`,
`% 2^32`) exactly where the Python source masks.  Python's arbitrary-precision
bitwise operators on possibly-negative ints are reproduced by the `py*`
functions below (two's-complement semantics).
-/

set_option maxRecDepth 10000

namespace MCC

/-! ### Python-faithful integer primitives

Python `a & b`, `a | b`, `a ^ b` on arbitrary ints use two's-complement
semantics; `a << n` is `a * 2^n`, `a >> n` is floor division by `2^n`, and a
negative shift count raises `ValueError`.  `a & (2^k - 1)` equals
`a mod 2^k` (Euclidean), and Python `//` / `%` are floor division / modulus
with the divisor's sign, i.e. `Int.fdiv` / `Int.fmod`.
-/

/-- Bitwise difference on `Nat`: bit `i` of `natLdiff a b` is
`a.testBit i && !(b.testBit i)`. -/
def natLdiff (a b : Nat) : Nat :=
  Nat.bitwise (fun x y => x && !y) a b

/-- Python `a & b` on arbitrary ints (two's complement). -/
def pyAnd (a b : Int) : Int :=
  match a, b with
  | Int.ofNat m, Int.ofNat n => Int.ofNat (m &&& n)
  | Int.ofNat m, Int.negSucc n => Int.ofNat (natLdiff m n)
  | Int.negSucc m, Int.ofNat n => Int.ofNat (natLdiff n m)
  | Int.negSucc m, Int.negSucc n => Int.negSucc (m ||| n)

/-- Python `a | b` on arbitrary ints (two's complement). -/
def pyOr (a b : Int) : Int :=
  match a, b with
  | Int.ofNat m, Int.ofNat n => Int.ofNat (m ||| n)
  | Int.ofNat m, Int.negSucc n => Int.negSucc (natLdiff n m)
  | Int.negSucc m, Int.ofNat n => Int.negSucc (natLdiff m n)
  | Int.negSucc m, Int.negSucc n => Int.negSucc (m &&& n)

/-- Python `a ^ b` on arbitrary ints (two's complement). -/
def pyXor (a b : Int) : Int :=
  match a, b with
  | Int.ofNat m, Int.ofNat n => Int.ofNat (m ^^^ n)
  | Int.ofNat m, Int.negSucc n => Int.negSucc (m ^^^ n)
  | Int.negSucc m, Int.ofNat n => Int.negSucc (m ^^^ n)
  | Int.negSucc m, Int.negSucc n => Int.ofNat (m ^^^ n)

/-- Python `a << n` for a nonnegative shift count. -/
def pyShl (a : Int) (n : Nat) : Int := a * (2 ^ n : Nat)

/-- Python `a >> n` for a nonnegative shift count (floor). -/
def pyShr (a : Int) (n : Nat) : Int := Int.fdiv a ((2 ^ n : Nat) : Int)

/-- ASCII uppercase of one character. -/
def upChar (c : Char) : Char :=
  if 'a' ≤ c ∧ c ≤ 'z' then Char.ofNat (c.toNat - 32) else c

/-- `str.upper()` (the source only ever uppercases ASCII opcode tokens). -/
def upStr (s : String) : String := String.mk (s.data.map upChar)

/-- Python `a & 0xFFFF` (16-bit truncation of an arbitrary int). -/
def mask16 (a : Int) : Nat := (Int.emod a 65536).toNat

/-- Python `a & 0xFFFFFFFF` (32-bit truncation of an arbitrary int). -/
def mask32 (a : Int) : Nat := (Int.emod a 4294967296).toNat

/-! ### `src/vm/memory.py` — the Memory management unit -/

/-- `MemoryRegion` (memory.py): a named region with a read-only flag. -/
structure MemoryRegion where
  startAddress : Nat
  size : Nat
  readOnly : Bool
  name : String
deriving DecidableEq, Repr

/-- `MemoryRegion.end_address` (memory.py). -/
def MemoryRegion.endAddress (r : MemoryRegion) : Nat :=
  r.startAddress + r.size - 1

/-- `MemoryRegion.contains` (memory.py). -/
def MemoryRegion.containsAddr (r : MemoryRegion) (address : Nat) : Bool :=
  decide (r.startAddress ≤ address) && decide (address ≤ r.endAddress)

/-- The error kinds `Memory` raises: `InvalidAddressException`,
`ReadOnlyException` and the generic `MemoryException`. -/
inductive MemErr where
  | invalidAddress (msg : String)
  | readOnly (msg : String)
  | memoryError (msg : String)
deriving DecidableEq, Repr

/-- The exception message (`str(e)` as seen by `CPU.step`). -/
def MemErr.msg : MemErr → String
  | .invalidAddress s => s
  | .readOnly s => s
  | .memoryError s => s

/-- The data component of `Memory.__init__` (memory.py): region table (in dict
insertion order: RAM first, then ROM), RAM word array, and access counters.
The ROM instruction array and label table are carried by the `Machine` record
below, as the CPU accesses them through the same object in the source. -/
structure Mem where
  regions : List MemoryRegion
  ram : List Nat
  readCount : Nat
  writeCount : Nat
deriving Repr

/-- `Memory.__init__` region layout with the given sizes
(defaults: `ram_size = 0x8000`, `rom_size = 0x4000`). -/
def mkRegions (ramSize romSize : Nat) : List MemoryRegion :=
  [ ⟨0x0000, ramSize, false, "RAM"⟩, ⟨0x8000, romSize, true, "ROM"⟩ ]

/-- A fresh `Memory(ram_size, rom_size)`. -/
def mkMem (ramSize romSize : Nat) : Mem :=
  { regions := mkRegions ramSize romSize
  , ram := List.replicate ramSize 0
  , readCount := 0
  , writeCount := 0 }

/-- `Memory._get_region` (memory.py): first region of the table containing the
address, else `InvalidAddressException`. -/
def Mem.getRegion (m : Mem) (address : Nat) : Except MemErr MemoryRegion :=
  match m.regions.find? (fun r => r.containsAddr address) with
  | some r => .ok r
  | none => .error (.invalidAddress "Address not in any memory region")

/-- `Memory.write` (memory.py): mask address and value to 16 bits, bump the
write counter, then enforce the region model.  The counter bump happens before
any check, as in the source, so the result state is returned alongside the
possible exception (the exception cases leave `ram` untouched). -/
def Mem.write (m : Mem) (address value : Int) : Mem × Option MemErr :=
  let a := mask16 address
  let v := mask16 value
  let m := { m with writeCount := m.writeCount + 1 }
  match m.getRegion a with
  | .error e => (m, some e)
  | .ok region =>
    if region.readOnly then
      (m, some (.readOnly "Cannot write to read-only memory"))
    else if region.name = "RAM" then
      let offset := a - region.startAddress
      if offset < m.ram.length then
        ({ m with ram := m.ram.set offset v }, none)
      else
        (m, some (.invalidAddress "Invalid write address"))
    else
      (m, some (.invalidAddress "Invalid write address"))

/-- `Memory.read` (memory.py): mask the address, bump the read counter; RAM
reads return the stored word, in-range ROM reads return 0 (the source comment
notes ROM holds instructions, not data), anything else raises. -/
def Mem.read (m : Mem) (address : Int) : (Mem × Option MemErr) × Nat :=
  let a := mask16 address
  let m := { m with readCount := m.readCount + 1 }
  match m.getRegion a with
  | .error e => ((m, some e), 0)
  | .ok region =>
    if region.name = "RAM" then
      let offset := a - region.startAddress
      if offset < m.ram.length then
        ((m, none), (m.ram.getD offset 0) % 65536)
      else
        ((m, some (.invalidAddress "Invalid read address")), 0)
    else if region.name = "ROM" then
      -- the source checks the offset against `len(self.rom)`, which equals
      -- the region size fixed at construction
      let offset := a - region.startAddress
      if offset < region.size then ((m, none), 0)
      else ((m, some (.invalidAddress "Invalid read address")), 0)
    else
      ((m, some (.invalidAddress "Invalid read address")), 0)

/-! ### Association lists

Python `dict`s are modelled as association lists with unique keys: lookup,
update-or-append (a dict update keeps the key's position; none of the embedded
code iterates over the dicts modelled here, so only the key-value content
matters), and deletion. -/

/-- Dict lookup. -/
def alookup {α β : Type} [DecidableEq α] (l : List (α × β)) (k : α) : Option β :=
  (l.find? (fun p => p.1 = k)).map (fun p => p.2)

/-- Dict store `d[k] = v`: replace in place, or append for a new key. -/
def aset {α β : Type} [DecidableEq α] : List (α × β) → α → β → List (α × β)
  | [], k, v => [(k, v)]
  | p :: rest, k, v =>
    if p.1 = k then (k, v) :: rest else p :: aset rest k v

/-- Dict delete `del d[k]`. -/
def aerase {α β : Type} [DecidableEq α] : List (α × β) → α → List (α × β)
  | [], _ => []
  | p :: rest, k =>
    if p.1 = k then aerase rest k else p :: aerase rest k

/-- Set membership for lists used as Python `set`s. -/
def smem {α : Type} [DecidableEq α] (l : List α) (x : α) : Bool := l.contains x

/-- Python `set.add`. -/
def sadd {α : Type} [DecidableEq α] (l : List α) (x : α) : List α :=
  if l.contains x then l else x :: l

/-- Python `set.discard`. -/
def sdel {α : Type} [DecidableEq α] (l : List α) (x : α) : List α :=
  l.filter (fun y => ¬ y = x)

/-! ### `src/vm/gpu.py` — the dual-buffer GPU

The pygame display plumbing is out of scope (headless embedding:
`pygame_initialized` is always false).  Buffers are 32 rows; a row is stored
bit-packed, pixel `(x, y)` at bit `31 - x` of row `y`. -/

/-- GPU state (`GPU.__init__`): the two framebuffers, the derived buffer-id
fields, the sprite and text tables, the 32-bit control register and the
command counter. -/
structure GPUState where
  buffer0 : List Nat
  buffer1 : List Nat
  displayBufferId : Nat
  editBufferId : Nat
  sprites : List (Nat × Nat)
  textChars : List (Nat × Nat)
  gpuRegister : Nat
  commandCount : Nat
deriving Repr, DecidableEq

/-- A fresh `GPU()`. -/
def mkGPU : GPUState :=
  { buffer0 := List.replicate 32 0
  , buffer1 := List.replicate 32 0
  , displayBufferId := 0
  , editBufferId := 0
  , sprites := []
  , textChars := []
  , gpuRegister := 0
  , commandCount := 0 }

/-- `GPU._update_buffers_from_register`. -/
def GPUState.sync (g : GPUState) : GPUState :=
  { g with displayBufferId := g.gpuRegister &&& 1
         , editBufferId := (g.gpuRegister &&& 2) >>> 1 }

/-- `GPU.get_edit_buffer`: sync the ids from the register, then return the
selected buffer.  The Python function returns an alias; writes through the
alias are modelled by `setEditBuffer` below. -/
def GPUState.getEditBuffer (g : GPUState) : GPUState × List Nat :=
  let g := g.sync
  (g, if g.editBufferId = 0 then g.buffer0 else g.buffer1)

/-- Writing back through the alias returned by `get_edit_buffer` (the state
must already be synced, which every caller guarantees). -/
def GPUState.setEditBuffer (g : GPUState) (b : List Nat) : GPUState :=
  if g.editBufferId = 0 then { g with buffer0 := b } else { g with buffer1 := b }

/-- `GPU.get_display_buffer`: sync, then return the selected buffer. -/
def GPUState.getDisplayBuffer (g : GPUState) : GPUState × List Nat :=
  let g := g.sync
  (g, if g.displayBufferId = 0 then g.buffer0 else g.buffer1)

/-- `GPU.set_gpu_register`: mask to 32 bits and re-derive the buffer ids. -/
def GPUState.setGpuRegister (g : GPUState) (value : Int) : GPUState :=
  GPUState.sync { g with gpuRegister := mask32 value }

/-- `GPU.get_gpu_register`. -/
def GPUState.getGpuRegister (g : GPUState) : Nat := g.gpuRegister

/-- Row update `buffer[i] |= mask` on the row list (all rows touched by the
source are in range 0..31 of the 32-row buffers). -/
def rowOr (b : List Nat) (i : Nat) (mask : Nat) : List Nat :=
  b.set i ((b.getD i 0) ||| mask)

/-- Row update `buffer[i] &= ~mask`: on a nonnegative row this is bitwise
difference (`pyAnd row (~mask) = natLdiff row mask`). -/
def rowAndNot (b : List Nat) (i : Nat) (mask : Nat) : List Nat :=
  b.set i (natLdiff (b.getD i 0) mask)

/-- `GPU._fill_row_range`: OR `width` consecutive bits at columns
`x_start..x_end` into row `y` (row skipped when out of 0..31; empty ranges are
no-ops).  The shift counts are nonnegative at every call site (arguments are
pre-clamped to 0..31), matching the source where a negative shift would raise. -/
def fillRowRange (b : List Nat) (y xStart xEnd : Int) : List Nat :=
  if y < 0 ∨ 32 ≤ y then b
  else
    let width := xEnd - xStart + 1
    if width ≤ 0 then b
    else
      let mask := ((1 <<< width.toNat) - 1) <<< ((32 - xStart - width).toNat)
      rowOr b y.toNat mask

/-- The row mask `(0xFFFFFFFF >> (32 - width)) << (32 - x - width)` used by
`_fill_grid` and `_clear_grid` (`x`, `width` already clamped so that
`width ≤ 32 - x ≤ 32`). -/
def gridMask (x width : Nat) : Nat :=
  (0xFFFFFFFF >>> (32 - width)) <<< (32 - x - width)

/-- The clamping common to `_fill_grid` and `_clear_grid`: clamp the corner to
the screen and the extent to what remains. -/
def clampRect (a b c d : Int) : Nat × Nat × Nat × Nat :=
  let xi := max 0 (min 31 a)
  let yi := max 0 (min 31 b)
  let wi := max 0 (min (32 - xi) c)
  let hi := max 0 (min (32 - yi) d)
  (xi.toNat, yi.toNat, wi.toNat, hi.toNat)

/-- `GPU._fill_grid` (DRGRD): OR the rectangle mask into each covered row. -/
def GPUState.fillGrid (g : GPUState) (ops : List Int) : GPUState :=
  match ops with
  | a :: b :: c :: d :: _ =>
    let (x, y, w, h) := clampRect a b c d
    let (g, buf) := g.getEditBuffer
    let rows := List.range' y (min 32 (y + h) - y)
    let buf :=
      if 0 < w then rows.foldl (fun bf r => rowOr bf r (gridMask x w)) buf
      else buf
    g.setEditBuffer buf
  | _ => g

/-- `GPU._clear_grid` (CLRGRID): AND-NOT the rectangle mask into each covered
row. -/
def GPUState.clearGrid (g : GPUState) (ops : List Int) : GPUState :=
  match ops with
  | a :: b :: c :: d :: _ =>
    let (x, y, w, h) := clampRect a b c d
    let (g, buf) := g.getEditBuffer
    let rows := List.range' y (min 32 (y + h) - y)
    let buf :=
      if 0 < w then rows.foldl (fun bf r => rowAndNot bf r (gridMask x w)) buf
      else buf
    g.setEditBuffer buf
  | _ => g

/-- `GPU._draw_line` (DRLINE): clamp the endpoints, then scanline-fill; the
horizontal case takes a fast path. -/
def GPUState.drawLine (g : GPUState) (ops : List Int) : GPUState :=
  match ops with
  | a :: b :: c :: d :: _ =>
    let x1 := max 0 (min 31 a)
    let y1 := max 0 (min 31 b)
    let x2 := max 0 (min 31 c)
    let y2 := max 0 (min 31 d)
    let yMin := min y1 y2
    let yMax := max y1 y2
    let xAtYMin := if y1 < y2 then x1 else x2
    let xAtYMax := if y1 < y2 then x2 else x1
    let dx := xAtYMax - xAtYMin
    let dy := yMax - yMin
    let xBoundLo := min xAtYMin xAtYMax
    let xBoundHi := max xAtYMin xAtYMax
    let (g, buf) := g.getEditBuffer
    if dy = 0 then
      let buf :=
        if 0 ≤ yMin ∧ yMin < 32 then fillRowRange buf yMin (min x1 x2) (max x1 x2)
        else buf
      g.setEditBuffer buf
    else
      let rows := List.range' yMin.toNat (yMax.toNat + 1 - yMin.toNat)
      let buf := rows.foldl (fun bf r =>
        let yScan : Int := r
        let yOffset := yScan - yMin
        let xNumerator := dx * yOffset
        let xPosition := xAtYMin + Int.fdiv xNumerator dy
        let xNext := xAtYMin + Int.fdiv (xNumerator + dx) dy
        let xStart := min xPosition xNext
        let xEnd := max xPosition xNext
        let xStart := max xBoundLo xStart
        let xEnd := min xBoundHi xEnd
        let xStart := max 0 (min 31 xStart)
        let xEnd := max 0 (min 31 xEnd)
        fillRowRange bf yScan xStart xEnd) buf
      g.setEditBuffer buf
  | _ => g

/-- `GPU._load_sprite` (LDSPR): store the low 15 bits of the data at slot
`id & 0x1F`. -/
def GPUState.loadSprite (g : GPUState) (ops : List Int) : GPUState :=
  match ops with
  | i :: data :: _ =>
    let spriteId := (Int.emod i 32).toNat
    let spriteData := (Int.emod data 0x8000).toNat
    { g with sprites := aset g.sprites spriteId spriteData }
  | _ => g

/-- Setting one pixel `buffer[py] |= 1 << (31 - px)` with the source's bounds
check. -/
def setPixelBit (b : List Nat) (px py : Nat) : List Nat :=
  if px < 32 ∧ py < 32 then rowOr b py (1 <<< (31 - px)) else b

/-- `GPU._draw_sprite` (DRSPR): paint the set bits of the 5×3 sprite at the
clamped position. -/
def GPUState.drawSprite (g : GPUState) (ops : List Int) : GPUState :=
  match ops with
  | i :: xo :: yo :: _ =>
    let spriteId := (Int.emod i 32).toNat
    match alookup g.sprites spriteId with
    | none => g
    | some data =>
      let x := (max 0 (min 27 xo)).toNat
      let y := (max 0 (min 29 yo)).toNat
      let (g, buf) := g.getEditBuffer
      let buf := (List.range 3).foldl (fun bf row =>
        (List.range 5).foldl (fun bf2 col =>
          if data.testBit (row * 5 + col) then setPixelBit bf2 (x + col) (y + row)
          else bf2) bf) buf
      g.setEditBuffer buf
  | _ => g

/-- `GPU._load_text` (LDTXT): store the low 6 bits of the data at slot
`id & 0x3FFF`. -/
def GPUState.loadText (g : GPUState) (ops : List Int) : GPUState :=
  match ops with
  | i :: data :: _ =>
    let address := (Int.emod i 0x4000).toNat
    let charCode := (Int.emod data 0x40).toNat
    { g with textChars := aset g.textChars address charCode }
  | _ => g

/-- `GPU._create_3x4_font`: the 12-bit 3×4 glyphs, keyed by character. -/
def fontData : List (Char × Nat) :=
  [ ('A', 0b101111101111), ('B', 0b111101111011), ('C', 0b111001001111)
  , ('D', 0b011101101011), ('E', 0b111001011111), ('F', 0b001011001111)
  , ('G', 0b111101001111), ('H', 0b101101111101), ('I', 0b111010010111)
  , ('J', 0b011010010111), ('K', 0b101011011101), ('L', 0b111001001001)
  , ('M', 0b101111111101), ('N', 0b101101101111), ('O', 0b111101101111)
  , ('P', 0b001111101111), ('Q', 0b100111101111), ('R', 0b101011111111)
  , ('S', 0b111110001111), ('T', 0b010010010111), ('U', 0b111101101101)
  , ('V', 0b010101101101), ('W', 0b111111111101), ('X', 0b101110011101)
  , ('Y', 0b010010111101), ('Z', 0b111001110111), ('0', 0b111101101110)
  , ('1', 0b010010010011), ('2', 0b111011100111), ('3', 0b111100110111)
  , ('4', 0b100111101101), ('5', 0b111100011111), ('6', 0b111111001111)
  , ('7', 0b100110100111), ('8', 0b111101111111), ('9', 0b111100111111)
  , ('!', 0b010000010010), ('?', 0b010000100111), ('+', 0b000010111010)
  , ('-', 0b000000111000), ('*', 0b000000010000), ('.', 0b010000000000)
  , (',', 0b011010000000) ]

/-- `GPU._decode_6bit_char`: A–Z ↦ 0–25, 0–9 ↦ 26–35, `!?+-*.,` ↦ 36–42,
anything else decodes to `?`. -/
def decode6bitChar (code : Nat) : Char :=
  let code := code % 64
  if code ≤ 25 then Char.ofNat (65 + code)
  else if code ≤ 35 then Char.ofNat (48 + (code - 26))
  else if code ≤ 42 then "!?+-*.,".toList.getD (code - 36) '?'
  else '?'

/-- `GPU._draw_text` (DRTXT): look up the queued character, clamp the
position, decode to a glyph and paint its set bits. -/
def GPUState.drawText (g : GPUState) (ops : List Int) : GPUState :=
  match ops with
  | tid :: xo :: yo :: _ =>
    let entry := if tid < 0 then none else alookup g.textChars tid.toNat
    match entry with
    | none => g
    | some charCode =>
      let x := (max 0 (min 29 xo)).toNat
      let y := (max 0 (min 28 yo)).toNat
      let actualChar := decode6bitChar charCode
      let pattern := (alookup fontData actualChar).getD
        ((alookup fontData '?').getD 0)
      let (g, buf) := g.getEditBuffer
      let buf := (List.range 4).foldl (fun bf row =>
        (List.range 3).foldl (fun bf2 col =>
          if pattern.testBit (row * 3 + col) then setPixelBit bf2 (x + col) (y + row)
          else bf2) bf) buf
      g.setEditBuffer buf
  | _ => g

/-- `GPU._scroll_buffer` (SCRLBFR): vertical scroll reassigns rows, horizontal
scroll shifts each row (masked to 32 bits on left shifts). -/
def GPUState.scrollBuffer (g : GPUState) (ops : List Int) : GPUState :=
  match ops with
  | offx :: offy :: _ =>
    let (g, buf) := g.getEditBuffer
    let buf :=
      if offy ≠ 0 then
        (List.range 32).map (fun r =>
          let nr := (r : Int) + offy
          if 0 ≤ nr ∧ nr < 32 then buf.getD nr.toNat 0 else 0)
      else buf
    let buf :=
      if offx ≠ 0 then
        buf.map (fun row =>
          if 0 < offx then (row <<< offx.toNat) % 4294967296
          else row >>> (-offx).toNat)
      else buf
    g.setEditBuffer buf
  | _ => g

/-- `GPU.execute_command`: bump the command counter and dispatch; an opcode
outside the table raises `GPUException` (never reached from the CPU, whose
dispatch only routes the eight GPU opcodes here). -/
def GPUState.executeCommand (g : GPUState) (opcode : String) (ops : List Int) :
    GPUState × Option String :=
  let g := { g with commandCount := g.commandCount + 1 }
  if opcode = "DRLINE" then (g.drawLine ops, none)
  else if opcode = "DRGRD" then (g.fillGrid ops, none)
  else if opcode = "CLRGRID" then (g.clearGrid ops, none)
  else if opcode = "LDSPR" then (g.loadSprite ops, none)
  else if opcode = "DRSPR" then (g.drawSprite ops, none)
  else if opcode = "LDTXT" then (g.loadText ops, none)
  else if opcode = "DRTXT" then (g.drawText ops, none)
  else if opcode = "SCRLBFR" then (g.scrollBuffer ops, none)
  else (g, some ("Unknown GPU command: " ++ opcode))

/-! ### `src/vm/cpu.py` — the CPU

Post-load operands are strings of six shapes; each CPU handler re-examines
the string (prefix `i:`, prefix `0x`, parses as an int, the special name
`GPU`, otherwise a label).  The embedding classifies each operand string once
into an `Opnd`; the constructors are in bijection with the outcomes of those
string tests, so every use-site branch of the source is recoverable:

  * `imm v`      — `i:N` with numeric `N` (decimal or `0x…` hex);
  * `immLabel s` — `i:s` with non-numeric `s` (a label reference);
  * `hex v`      — bare `0x…` hex immediate;
  * `hexBad s`   — a string starting with `0x` whose digits do not parse
                   (the loader accepts it by prefix; `int(s, 16)` raises at
                   execution);
  * `num v`      — bare decimal (a register index; may be negative);
  * `gpuReg`     — the special name `GPU`;
  * `lbl s`      — any other identifier (a label reference).
-/

/-- A parsed operand (see the classification above). -/
inductive Opnd where
  | imm (v : Int)
  | immLabel (s : String)
  | hex (v : Nat)
  | hexBad (s : String)
  | num (v : Int)
  | gpuReg
  | lbl (s : String)
deriving DecidableEq, Repr

/-- A decoded instruction (`Instruction` dataclass in cpu.py). -/
structure Instr where
  opcode : String
  operands : List Opnd
  address : Nat
deriving DecidableEq, Repr

/-- `CPUState` enum in cpu.py. -/
inductive CpuMode where
  | running
  | stopped
  | error
  | breakpoint
deriving DecidableEq, Repr

/-- The machine: CPU state (cpu.py) plus the memory unit, loaded program,
label table (memory.py) and the optional GPU.  `stdinChar` is the character
code the headless `_read_stdin_char` would deliver when `KEYIN` finds the ring
buffer empty (that function reads the host's stdin; its result is an oracle
here).  The pygame blocking-input path is out of scope (headless embedding). -/
structure Machine where
  registers : List Nat
  pc : Int
  mode : CpuMode
  haltReason : Option String
  instructionCount : Nat
  cycleCount : Nat
  inputBuffer : List Nat
  inputWritePos : Nat
  inputReadPos : Nat
  mem : Mem
  program : List Instr
  labels : List (String × Nat)
  gpu : Option GPUState
  stdinChar : Nat
deriving Repr

/-- `CPU.add_input_char`: store at the write pointer and advance it modulo
the buffer length; no full-buffer check. -/
def Machine.addInputChar (m : Machine) (charCode : Nat) : Machine :=
  { m with inputBuffer := m.inputBuffer.set m.inputWritePos charCode
         , inputWritePos := (m.inputWritePos + 1) % m.inputBuffer.length }

/-- `CPU.read_input_char`: the non-blocking read; pointer equality means
empty and yields 0. -/
def Machine.readInputChar (m : Machine) : Nat × Machine :=
  if m.inputReadPos = m.inputWritePos then (0, m)
  else
    ( m.inputBuffer.getD m.inputReadPos 0
    , { m with inputReadPos := (m.inputReadPos + 1) % m.inputBuffer.length } )

/-- `CPU.get_register` for a numeric index. -/
def Machine.getRegisterN (m : Machine) (r : Int) : Except String Nat :=
  if 0 ≤ r ∧ r < (m.registers.length : Int) then
    .ok (m.registers.getD r.toNat 0)
  else .error "Invalid register"

/-- `CPU.get_register('GPU')`: the GPU control register, 0 with no GPU. -/
def Machine.gpuRegisterValue (m : Machine) : Nat :=
  match m.gpu with
  | some g => g.getGpuRegister
  | none => 0

/-- `CPU.set_register` for a numeric index: mask to 16 bits, bounds-checked. -/
def Machine.setRegisterN (m : Machine) (r : Int) (v : Int) :
    Machine × Option String :=
  if 0 ≤ r ∧ r < (m.registers.length : Int) then
    ({ m with registers := m.registers.set r.toNat (mask16 v) }, none)
  else (m, some "Invalid register")

/-- `CPU.set_register('GPU')`: mask to 32 bits and hand to the GPU (a no-op
without one). -/
def Machine.setRegisterGpu (m : Machine) (v : Int) : Machine :=
  match m.gpu with
  | some g => { m with gpu := some (g.setGpuRegister (mask32 v : Nat)) }
  | none => m

/-- `Memory.resolve_label`: direct lookup, then with the `func_` prefix. -/
def Machine.resolveLabel (m : Machine) (label : String) : Except String Int :=
  match alookup m.labels label with
  | some a => .ok (a : Int)
  | none =>
    match alookup m.labels ("func_" ++ label) with
    | some a => .ok (a : Int)
    | none => .error ("Undefined label: " ++ label)

/-- Result of `CPU._resolve_operand`: an integer, or the special register
name. -/
inductive Resolved where
  | int (v : Int)
  | specialGpu
deriving DecidableEq, Repr

/-- `CPU._resolve_operand`: immediates and bare decimals resolve to their own
integer (a decimal is the register *index* here, not its content), labels go
through the label table, `GPU` resolves to the special name. -/
def Machine.resolveOperand (m : Machine) (o : Opnd) : Except String Resolved :=
  match o with
  | .imm v => .ok (.int v)
  | .immLabel s => (m.resolveLabel s).map .int
  | .hex v => .ok (.int v)
  | .hexBad s => .error ("invalid hex literal: " ++ s)
  | .num v => .ok (.int v)
  | .gpuReg => .ok .specialGpu
  | .lbl s => (m.resolveLabel s).map .int

/-- `CPU._get_operand_value`: immediates give their value (an `i:` label is
looked up in the label table first, then through `resolve_label`), a bare
decimal reads that register, `GPU` reads the GPU register, and a bare label
resolves to an address that is then read **as a register index** (a quirk the
source keeps). -/
def Machine.getOperandValue (m : Machine) (o : Opnd) : Except String Int :=
  match o with
  | .imm v => .ok v
  | .immLabel s =>
    match alookup m.labels s with
    | some a => .ok (a : Int)
    | none => (m.resolveLabel s)
  | .hex v => .ok (v : Int)
  | .hexBad s => .error ("invalid hex literal: " ++ s)
  | .num v => (m.getRegisterN v).map (fun n => (n : Int))
  | .gpuReg => .ok (m.gpuRegisterValue : Int)
  | .lbl s => do
    let a ← m.resolveLabel s
    ((m.getRegisterN a).map (fun n => (n : Int)))

/-- Value operand of `_exec_load` / address operands of `_exec_load`,
`_exec_read`, `_exec_mvm`: `i:`-immediates resolve, bare hex parses, bare
decimals read the register, anything else raises with the given message. -/
def Machine.loadStyleOperand (m : Machine) (o : Opnd) (errMsg : String) :
    Except String Int :=
  match o with
  | .imm v => .ok v
  | .immLabel s => m.resolveLabel s
  | .hex v => .ok (v : Int)
  | .hexBad s => .error ("invalid hex literal: " ++ s)
  | .num v => (m.getRegisterN v).map (fun n => (n : Int))
  | .gpuReg => .error errMsg
  | .lbl _ => .error errMsg

/-- Does the operand string start with `i:` (immediate forms)? -/
def Opnd.isImmForm : Opnd → Bool
  | .imm _ => true
  | .immLabel _ => true
  | _ => false

/-- Is the operand the special name `GPU` (the `str(op) == 'GPU'` test of the
ALU handlers)? -/
def Opnd.isGpu : Opnd → Bool
  | .gpuReg => true
  | _ => false

/-- Run an `Except` against the current machine: an error becomes the raised
exception with the machine unchanged. -/
def tryE {α : Type} (m : Machine) (r : Except String α)
    (k : α → Machine × Option String) : Machine × Option String :=
  match r with
  | .ok v => k v
  | .error e => (m, some e)

/-- `CPU._exec_load`. -/
def execLOAD (m : Machine) (ops : List Opnd) : Machine × Option String :=
  match ops with
  | [o1, o2] =>
    tryE m (m.loadStyleOperand o1 "Invalid source operand") (fun value =>
    tryE m (m.loadStyleOperand o2 "Invalid destination address operand") (fun ramAddr =>
      let (mem2, err) := m.mem.write ramAddr value
      ({ m with mem := mem2 }, err.map MemErr.msg)))
  | _ => (m, some "LOAD requires 2 operands")

/-- `CPU._exec_read`. -/
def execREAD (m : Machine) (ops : List Opnd) : Machine × Option String :=
  match ops with
  | [o1, o2] =>
    if o2.isImmForm then (m, some "READ destination cannot be immediate value")
    else
      tryE m (m.loadStyleOperand o1 "Invalid RAM address operand") (fun ramAddr =>
      match o2 with
      | .num destReg =>
        if 0 ≤ destReg ∧ destReg < (m.registers.length : Int) then
          let ((mem2, err), value) := m.mem.read ramAddr
          let m2 := { m with mem := mem2 }
          match err with
          | some e => (m2, some e.msg)
          | none => m2.setRegisterN destReg (value : Int)
        else (m, some "Invalid destination register")
      | _ => (m, some "Invalid destination register"))
  | _ => (m, some "READ requires 2 operands")

/-- `CPU._exec_mvr`. -/
def execMVR (m : Machine) (ops : List Opnd) : Machine × Option String :=
  match ops with
  | [o1, o2] =>
    if o2.isImmForm then (m, some "MVR destination cannot be immediate value")
    else
      tryE m (m.getOperandValue o1) (fun value =>
      match o2 with
      | .num dstReg => m.setRegisterN dstReg value
      | .gpuReg => (m.setRegisterGpu value, none)
      | _ => (m, some "Invalid destination register"))
  | _ => (m, some "MVR requires 2 operands")

/-- `CPU._exec_mvm`. -/
def execMVM (m : Machine) (ops : List Opnd) : Machine × Option String :=
  match ops with
  | [o1, o2] =>
    tryE m (m.loadStyleOperand o1 "Invalid source address operand") (fun srcAddr =>
    tryE m (m.loadStyleOperand o2 "Invalid destination address operand") (fun dstAddr =>
      let ((mem2, err), value) := m.mem.read srcAddr
      let m2 := { m with mem := mem2 }
      match err with
      | some e => (m2, some e.msg)
      | none =>
        let (mem3, err2) := m2.mem.write dstAddr (value : Int)
        ({ m2 with mem := mem3 }, err2.map MemErr.msg)))
  | _ => (m, some "MVM requires 2 operands")

/-- Shared shape of the two-operand ALU handlers: fetch both values, compute,
store in R0. -/
def execBinToR0 (m : Machine) (ops : List Opnd) (reqMsg : String)
    (f : Opnd → Opnd → Int → Int → Except String Int) : Machine × Option String :=
  match ops with
  | [o1, o2] =>
    tryE m (m.getOperandValue o1) (fun a =>
    tryE m (m.getOperandValue o2) (fun b =>
    tryE m (f o1 o2 a b) (fun result =>
      m.setRegisterN 0 result)))
  | _ => (m, some reqMsg)

/-- `CPU._exec_add`. -/
def execADD (m : Machine) (ops : List Opnd) : Machine × Option String :=
  execBinToR0 m ops "ADD requires 2 operands" (fun _ _ a b => .ok (a + b))

/-- `CPU._exec_sub`. -/
def execSUB (m : Machine) (ops : List Opnd) : Machine × Option String :=
  execBinToR0 m ops "SUB requires 2 operands" (fun _ _ a b => .ok (a - b))

/-- `CPU._exec_mult`: low half to R0, high half to R1. -/
def execMULT (m : Machine) (ops : List Opnd) : Machine × Option String :=
  match ops with
  | [o1, o2] =>
    tryE m (m.getOperandValue o1) (fun a =>
    tryE m (m.getOperandValue o2) (fun b =>
      let result := a * b
      let (m2, err) := m.setRegisterN 0 (mask16 result : Nat)
      match err with
      | some e => (m2, some e)
      | none => m2.setRegisterN 1 (mask16 (pyShr result 16) : Nat)))
  | _ => (m, some "MULT requires 2 operands")

/-- `CPU._exec_div`: `b = 0` raises `Division by zero` before any register is
touched; otherwise floor quotient to R0, Python-style remainder to R1. -/
def execDIV (m : Machine) (ops : List Opnd) : Machine × Option String :=
  match ops with
  | [o1, o2] =>
    tryE m (m.getOperandValue o1) (fun a =>
    tryE m (m.getOperandValue o2) (fun b =>
      if b = 0 then (m, some "Division by zero")
      else
        let (m2, err) := m.setRegisterN 0 (Int.fdiv a b)
        match err with
        | some e => (m2, some e)
        | none => m2.setRegisterN 1 (Int.fmod a b)))
  | _ => (m, some "DIV requires 2 operands")

/-- `CPU._exec_shl` / `_exec_shr`: logical shifts masked to 16 bits (32 when
the first operand is `GPU`); Python raises on a negative shift count. -/
def execSHIFT (m : Machine) (ops : List Opnd) (reqMsg : String) (left : Bool) :
    Machine × Option String :=
  match ops with
  | [o1, o2] =>
    tryE m (m.getOperandValue o1) (fun a =>
    tryE m (m.getOperandValue o2) (fun b =>
      if b < 0 then (m, some "negative shift count")
      else
        let shifted := if left then pyShl a b.toNat else pyShr a b.toNat
        let result : Nat := if o1.isGpu then mask32 shifted else mask16 shifted
        m.setRegisterN 0 (result : Int)))
  | _ => (m, some reqMsg)

/-- `CPU._exec_shlr`: 16-bit left rotate by `b % 16`. -/
def execSHLR (m : Machine) (ops : List Opnd) : Machine × Option String :=
  match ops with
  | [o1, o2] =>
    tryE m (m.getOperandValue o1) (fun a0 =>
    tryE m (m.getOperandValue o2) (fun b0 =>
      let b := (Int.emod b0 16).toNat
      let a := mask16 a0
      let result := ((a <<< b) ||| (a >>> (16 - b))) % 65536
      m.setRegisterN 0 (result : Int)))
  | _ => (m, some "SHLR requires 2 operands")

/-- `CPU._exec_and` / `_exec_or` / `_exec_xor`: two's-complement bitwise op,
masked to 32 bits when either operand is `GPU`. -/
def execBITWISE (m : Machine) (ops : List Opnd) (reqMsg : String)
    (f : Int → Int → Int) : Machine × Option String :=
  match ops with
  | [o1, o2] =>
    tryE m (m.getOperandValue o1) (fun a =>
    tryE m (m.getOperandValue o2) (fun b =>
      let result : Int :=
        if o1.isGpu ∨ o2.isGpu then (mask32 (f a b) : Int) else f a b
      m.setRegisterN 0 result))
  | _ => (m, some reqMsg)

/-- `CPU._exec_not`: in-place 16-bit complement of a register. -/
def execNOT (m : Machine) (ops : List Opnd) : Machine × Option String :=
  match ops with
  | [o1] =>
    if o1.isImmForm then (m, some "NOT operand cannot be immediate value")
    else
      match o1 with
      | .num regNum =>
        tryE m (m.getRegisterN regNum) (fun a =>
          m.setRegisterN regNum (mask16 (-(a : Int) - 1) : Nat))
      | _ => (m, some "Invalid operand: NOT requires a register")
  | _ => (m, some "NOT requires 1 operand")

/-- Jump-target resolution shared by `JAL`, `JBT`, `JZ`, `JNZ`
(`_resolve_operand` on the target).  A target resolving to the special name
`GPU` is modelled as a failure here: the source would assign the string to
`pc` and fault at the next fetch. -/
def Machine.jumpResolve (m : Machine) (o : Opnd) : Except String Int :=
  match m.resolveOperand o with
  | .ok (.int v) => .ok v
  | .ok .specialGpu => .error "jump target is a special register"
  | .error e => .error e

/-- `JMP`-specific target resolution: a nonnegative bare decimal names a
register whose *content* is the target; every other shape resolves as in
`_resolve_operand` (the `operand.isdigit()` test is false for negative
decimals, which therefore fall through and jump to themselves as addresses). -/
def Machine.jmpTargetResolve (m : Machine) (o : Opnd) : Except String Int :=
  match o with
  | .num v =>
    if 0 ≤ v then (m.getRegisterN v).map (fun n => (n : Int))
    else .ok v
  | _ => m.jumpResolve o

/-- `CPU._exec_jmp`. -/
def execJMP (m : Machine) (ops : List Opnd) : Machine × Option String :=
  match ops with
  | [o1] =>
    tryE m (m.jmpTargetResolve o1) (fun target => ({ m with pc := target }, none))
  | _ => (m, some "JMP requires 1 operand")

/-- `CPU._exec_jal`: the return address `pc + 1` goes to
`SECONDARY_RETURN_REG`, which the source defines as register **1**; the write
happens before the target resolves. -/
def execJAL (m : Machine) (ops : List Opnd) : Machine × Option String :=
  match ops with
  | [o1] =>
    let (m2, err) := m.setRegisterN 1 (m.pc + 1)
    match err with
    | some e => (m2, some e)
    | none =>
      tryE m2 (m2.jumpResolve o1) (fun target => ({ m2 with pc := target }, none))
  | _ => (m, some "JAL requires 1 operand")

/-- `CPU._exec_jbt`. -/
def execJBT (m : Machine) (ops : List Opnd) : Machine × Option String :=
  match ops with
  | [o1, o2, o3] =>
    tryE m (m.jumpResolve o1) (fun target =>
    tryE m (m.getOperandValue o2) (fun x =>
    tryE m (m.getOperandValue o3) (fun y =>
      if y < x then ({ m with pc := target }, none)
      else ({ m with pc := m.pc + 1 }, none))))
  | _ => (m, some "JBT requires 3 operands")

/-- `CPU._exec_jz`. -/
def execJZ (m : Machine) (ops : List Opnd) : Machine × Option String :=
  match ops with
  | [o1, o2] =>
    tryE m (m.jumpResolve o1) (fun target =>
    tryE m (m.getOperandValue o2) (fun x =>
      if x = 0 then ({ m with pc := target }, none)
      else ({ m with pc := m.pc + 1 }, none)))
  | _ => (m, some "JZ requires 2 operands")

/-- `CPU._exec_jnz`. -/
def execJNZ (m : Machine) (ops : List Opnd) : Machine × Option String :=
  match ops with
  | [o1, o2] =>
    tryE m (m.jumpResolve o1) (fun target =>
    tryE m (m.getOperandValue o2) (fun x =>
      if x ≠ 0 then ({ m with pc := target }, none)
      else ({ m with pc := m.pc + 1 }, none)))
  | _ => (m, some "JNZ requires 2 operands")

/-- `CPU._exec_keyin`: resolve the destination address, take a queued
character if the ring buffer is nonempty (otherwise the headless stdin path
delivers `stdinChar`), and store it; write failures are wrapped. -/
def execKEYIN (m : Machine) (ops : List Opnd) : Machine × Option String :=
  match ops with
  | [o1] =>
    match m.resolveOperand o1 with
    | .error e => (m, some e)
    | .ok .specialGpu => (m, some "KEYIN memory write failed: invalid address")
    | .ok (.int address) =>
      let (charCode, m2) :=
        if m.inputReadPos ≠ m.inputWritePos then m.readInputChar
        else (m.stdinChar, m)
      let (mem2, err) := m2.mem.write address (charCode : Int)
      ({ m2 with mem := mem2 },
        err.map (fun e => "KEYIN memory write failed: " ++ e.msg))
  | _ => (m, some "KEYIN requires 1 operand")

/-- `CPU._exec_halt`. -/
def execHALT (m : Machine) (_ : List Opnd) : Machine × Option String :=
  ({ m with mode := .stopped, haltReason := some "HALT instruction executed" }, none)

/-- `CPU._exec_gpu`: resolve every operand to a value, then delegate to the
GPU (ignored when none is attached). -/
def execGPU (m : Machine) (opcode : String) (ops : List Opnd) :
    Machine × Option String :=
  let rec resolveAll (m : Machine) (rest : List Opnd) (acc : List Int) :
      Except String (List Int) :=
    match rest with
    | [] => .ok acc.reverse
    | o :: rest =>
      match m.getOperandValue o with
      | .ok v => resolveAll m rest (v :: acc)
      | .error e => .error e
  tryE m (resolveAll m ops []) (fun vals =>
    match m.gpu with
    | none => (m, none)
    | some g =>
      let (g2, err) := g.executeCommand opcode vals
      ({ m with gpu := some g2 }, err))

/-- The handler table keys of `CPU.instruction_handlers`. -/
def knownOpcodes : List String :=
  [ "LOAD", "READ", "MVR", "MVM", "ADD", "SUB", "MULT", "DIV", "SHL", "SHR"
  , "SHLR", "AND", "OR", "XOR", "NOT", "JMP", "JAL", "JBT", "JZ", "JNZ"
  , "KEYIN", "HALT"
  , "DRLINE", "DRGRD", "CLRGRID", "LDSPR", "DRSPR", "LDTXT", "DRTXT", "SCRLBFR" ]

/-- The opcodes that manage `pc` themselves (`_execute_instruction`). -/
def jumpOpcodes : List String := ["JMP", "JAL", "JBT", "JZ", "JNZ"]

/-- The handler slots of `CPU.instruction_handlers` (the eight GPU opcodes
share `_exec_gpu`). -/
inductive OpKind where
  | LOAD | READ | MVR | MVM | ADD | SUB | MULT | DIV | SHL | SHR | SHLR
  | AND | OR | XOR | NOT | JMP | JAL | JBT | JZ | JNZ | KEYIN | HALT | GPUOP
deriving DecidableEq, Repr

/-- Key lookup in `CPU.instruction_handlers` by the uppercased opcode. -/
def decodeOp (u : String) : Option OpKind :=
  if u = "LOAD" then some .LOAD
  else if u = "READ" then some .READ
  else if u = "MVR" then some .MVR
  else if u = "MVM" then some .MVM
  else if u = "ADD" then some .ADD
  else if u = "SUB" then some .SUB
  else if u = "MULT" then some .MULT
  else if u = "DIV" then some .DIV
  else if u = "SHL" then some .SHL
  else if u = "SHR" then some .SHR
  else if u = "SHLR" then some .SHLR
  else if u = "AND" then some .AND
  else if u = "OR" then some .OR
  else if u = "XOR" then some .XOR
  else if u = "NOT" then some .NOT
  else if u = "JMP" then some .JMP
  else if u = "JAL" then some .JAL
  else if u = "JBT" then some .JBT
  else if u = "JZ" then some .JZ
  else if u = "JNZ" then some .JNZ
  else if u = "KEYIN" then some .KEYIN
  else if u = "HALT" then some .HALT
  else if u ∈ ["DRLINE", "DRGRD", "CLRGRID", "LDSPR", "DRSPR", "LDTXT", "DRTXT", "SCRLBFR"]
  then some .GPUOP
  else none

/-- Run the handler found in the table. -/
def execOp (k : OpKind) (m : Machine) (i : Instr) : Machine × Option String :=
  match k with
  | .LOAD => execLOAD m i.operands
  | .READ => execREAD m i.operands
  | .MVR => execMVR m i.operands
  | .MVM => execMVM m i.operands
  | .ADD => execADD m i.operands
  | .SUB => execSUB m i.operands
  | .MULT => execMULT m i.operands
  | .DIV => execDIV m i.operands
  | .SHL => execSHIFT m i.operands "SHL requires 2 operands" true
  | .SHR => execSHIFT m i.operands "SHR requires 2 operands" false
  | .SHLR => execSHLR m i.operands
  | .AND => execBITWISE m i.operands "AND requires 2 operands" pyAnd
  | .OR => execBITWISE m i.operands "OR requires 2 operands" pyOr
  | .XOR => execBITWISE m i.operands "XOR requires 2 operands" pyXor
  | .NOT => execNOT m i.operands
  | .JMP => execJMP m i.operands
  | .JAL => execJAL m i.operands
  | .JBT => execJBT m i.operands
  | .JZ => execJZ m i.operands
  | .JNZ => execJNZ m i.operands
  | .KEYIN => execKEYIN m i.operands
  | .HALT => execHALT m i.operands
  | .GPUOP => execGPU m i.opcode i.operands

/-- Dispatch on the uppercased opcode (`instruction_handlers.get`); `none`
for an unknown opcode. -/
def dispatchOpcode (m : Machine) (i : Instr) (u : String) :
    Option (Machine × Option String) :=
  match decodeOp u with
  | none => none
  | some k => some (execOp k m i)

/-- `CPU._execute_instruction`: dispatch, then advance `pc` unless a jump
opcode managed it. -/
def Machine.executeInstruction (m : Machine) (i : Instr) :
    Machine × Option String :=
  match dispatchOpcode m i (upStr i.opcode) with
  | none => (m, some ("Unknown instruction: " ++ i.opcode))
  | some (m1, some e) => (m1, some e)
  | some (m1, none) =>
    if upStr i.opcode ∈ jumpOpcodes then (m1, none)
    else ({ m1 with pc := m1.pc + 1 }, none)

/-- `Memory.fetch_instruction`. -/
def Machine.fetch (m : Machine) : Option Instr :=
  if 0 ≤ m.pc ∧ m.pc < (m.program.length : Int) then m.program.get? m.pc.toNat
  else none

/-- `CPU.step`: only `Running` advances; a missing instruction is a clean
stop; a raised exception becomes `state = Error` with the exception text as
`halt_reason` (partial mutations made before the raise persist, as in the
source).  The boolean mirrors the Python return value. -/
def Machine.step (m : Machine) : Machine × Bool :=
  if m.mode ≠ .running then (m, false)
  else
    match m.fetch with
    | none => ({ m with mode := .stopped, haltReason := some "End of program" }, false)
    | some i =>
      match m.executeInstruction i with
      | (m1, none) =>
        ({ m1 with instructionCount := m1.instructionCount + 1
                 , cycleCount := m1.cycleCount + 1 }, true)
      | (m1, some e) => ({ m1 with mode := .error, haltReason := some e }, false)

/-- The resolved jump target of a jump instruction at the pre-state (used to
state that `step` either advances `pc` by one or installs a jump target). -/
def Machine.jumpTargetOf (m : Machine) (i : Instr) : Option Int :=
  match upStr i.opcode, i.operands with
  | "JMP", o :: _ => (m.jmpTargetResolve o).toOption
  | "JAL", o :: _ => (m.jumpResolve o).toOption
  | "JBT", o :: _ => (m.jumpResolve o).toOption
  | "JZ", o :: _ => (m.jumpResolve o).toOption
  | "JNZ", o :: _ => (m.jumpResolve o).toOption
  | _, _ => none

/-! ### `src/vm/assembly_loader.py` — the two-pass assembly loader

The string manipulation is carried out over `List Char` (several core
`String` functions are opaque to the kernel); `String.mk` packs results back
when a name is stored. -/

/-- The whitespace characters Python's `str.strip` / `str.split()` treat as
blanks. -/
def isPySpace (c : Char) : Bool :=
  c = ' ' ∨ c = '\t' ∨ c = '\n' ∨ c = '\r' ∨ c = Char.ofNat 11 ∨ c = Char.ofNat 12

/-- `str.strip()`. -/
def trimChars (cs : List Char) : List Char :=
  ((cs.dropWhile isPySpace).reverse.dropWhile isPySpace).reverse

/-- Cut a line at the first `//`. -/
def cutLineComment : List Char → List Char
  | [] => []
  | '/' :: '/' :: _ => []
  | c :: rest => c :: cutLineComment rest

/-- `[a-zA-Z_]` (ASCII, as in the source's regex). -/
def isIdentStart (c : Char) : Bool := c.isAlpha || c = '_'

/-- `[a-zA-Z0-9_]`. -/
def isIdentChar (c : Char) : Bool := c.isAlphanum || c = '_'

/-- Full match of `^[a-zA-Z_][a-zA-Z0-9_]*$`. -/
def isIdentChars (cs : List Char) : Bool :=
  match cs with
  | [] => false
  | c :: rest => isIdentStart c && rest.all isIdentChar

/-- `re.match` against `^([a-zA-Z_][a-zA-Z0-9_]*):(.*)$`: the label name and
the remainder of the line.  Identifier characters exclude `:`, so the greedy
group is simply the maximal identifier prefix. -/
def matchLabelChars (cs : List Char) : Option (String × List Char) :=
  match cs with
  | [] => none
  | c :: _ =>
    if isIdentStart c then
      let ident := cs.takeWhile isIdentChar
      match cs.drop ident.length with
      | ':' :: tail => some (String.mk ident, tail)
      | _ => none
    else none

/-- One hex digit. -/
def hexDigit? (c : Char) : Option Nat :=
  if '0' ≤ c ∧ c ≤ '9' then some (c.toNat - 48)
  else if 'a' ≤ c ∧ c ≤ 'f' then some (c.toNat - 87)
  else if 'A' ≤ c ∧ c ≤ 'F' then some (c.toNat - 55)
  else none

/-- The digit string of Python's `int(s, 16)` (after the `0x` prefix):
surrounding blanks are stripped by `int` itself; the digits must be
nonempty. -/
def hexNat? (cs0 : List Char) : Option Nat :=
  match trimChars cs0 with
  | [] => none
  | cs => cs.foldl (fun acc c =>
      match acc, hexDigit? c with
      | some a, some d => some (a * 16 + d)
      | _, _ => none) (some 0)

/-- All-decimal-digit value. -/
def decDigits? (cs : List Char) : Option Nat :=
  match cs with
  | [] => none
  | _ => cs.foldl (fun acc c =>
      match acc, c.isDigit with
      | some a, true => some (a * 10 + (c.toNat - 48))
      | _, _ => none) (some 0)

/-- Python `int(s)`: optional sign, decimal digits, surrounding blanks
allowed (underscore grouping is not modelled). -/
def decInt? (cs0 : List Char) : Option Int :=
  match trimChars cs0 with
  | '-' :: ds => (decDigits? ds).map (fun n => -(n : Int))
  | '+' :: ds => (decDigits? ds).map (fun n => (n : Int))
  | ds => (decDigits? ds).map (fun n => (n : Int))

/-- `AssemblyLoader._preprocess_line`: drop everything from the first `//`,
then strip. -/
def preprocessLine (cs : List Char) : List Char :=
  trimChars (cutLineComment cs)

/-- Classify an accepted operand string by the same prefix tests every CPU
handler performs (see `Opnd`).  A `0X…` string fails the CPU's
case-sensitive `startswith('0x')` test and then the `int()` parse, so it
behaves exactly like an unknown label there and is classified as one. -/
def classifyOperand (cs : List Char) : Opnd :=
  match cs with
  | 'i' :: ':' :: v =>
    match v with
    | '0' :: 'x' :: hs =>
      (match hexNat? hs with
       | some n => .imm (n : Int)
       | none => .immLabel (String.mk v))
    | _ =>
      (match decInt? v with
       | some n => .imm n
       | none => .immLabel (String.mk v))
  | '0' :: 'x' :: hs =>
    (match hexNat? hs with
     | some n => .hex n
     | none => .hexBad (String.mk cs))
  | '0' :: 'X' :: _ => .lbl (String.mk cs)
  | _ =>
    match decInt? cs with
    | some n => .num n
    | none => if String.mk cs = "GPU" then .gpuReg else .lbl (String.mk cs)

/-- `AssemblyLoader._parse_operand`: accept `i:…`, `0x…`/`0X…`, decimal
integers and identifiers; reject everything else with `Invalid operand`.
The accepted string is classified for the CPU (see `Opnd`). -/
def parseOperand (cs0 : List Char) : Except String Opnd :=
  let cs := trimChars cs0
  match cs with
  | 'i' :: ':' :: _ => .ok (classifyOperand cs)
  | '0' :: 'x' :: _ => .ok (classifyOperand cs)
  | '0' :: 'X' :: _ => .ok (classifyOperand cs)
  | _ =>
    if (decInt? cs).isSome then .ok (classifyOperand cs)
    else if isIdentChars cs then .ok (classifyOperand cs)
    else .error ("Invalid operand: " ++ String.mk cs)

/-- `AssemblyLoader._parse_instruction`: split on whitespace, uppercase the
opcode (no check against any instruction table), rejoin the rest, strip an
inline `;` comment, split operands on commas. -/
def parseInstruction (line : List Char) (address : Nat) : Except String Instr := do
  let parts := (List.splitOnP isPySpace line).filter (fun p => ¬ p = [])
  match parts with
  | [] => .error "Empty instruction"
  | opc :: rest =>
    let opcode := String.mk (opc.map upChar)
    let operandStr := List.intercalate [' '] rest
    let operandStr := operandStr.takeWhile (fun c => ¬ c = ';')
    let operandParts := (List.splitOnP (fun c => c = ',') operandStr).map trimChars
    let mut operands : List Opnd := []
    for op in operandParts do
      if ¬ op = [] then
        let o ← parseOperand op
        operands := operands ++ [o]
    return ⟨opcode, operands, address⟩

/-- Does the line start with `//` (after a strip)? -/
def startsWithSlashSlash : List Char → Bool
  | '/' :: '/' :: _ => true
  | _ => false

/-- Pass 1 of `load_from_string`: collect labels (this pass cannot raise). -/
def loaderPassOne (lines : List (List Char)) : List (String × Nat) :=
  (lines.foldl (fun (st : List (String × Nat) × Nat) line =>
    let (labels, addr) := st
    let processed := preprocessLine line
    if processed = [] then (labels, addr)
    else if processed.contains ':' ∧ ¬ startsWithSlashSlash (trimChars processed) then
      match matchLabelChars processed with
      | some (name, rest) =>
        let labels := aset labels name addr
        if ¬ trimChars rest = [] ∧ ¬ startsWithSlashSlash (trimChars rest) then
          (labels, addr + 1)
        else (labels, addr)
      | none => (labels, addr + 1)
    else (labels, addr + 1)) ([], 0)).1

/-- Pass 2 of `load_from_string`: parse the instructions; any parse failure
aborts with the 1-based line number. -/
def loaderPassTwo (lines : List (List Char)) : Except String (List Instr) := do
  let mut instructions : List Instr := []
  let mut addr : Nat := 0
  let mut lineNum : Nat := 0
  for line in lines do
    lineNum := lineNum + 1
    let processed := preprocessLine line
    if ¬ processed = [] then
      if processed.contains ':' then
        match matchLabelChars processed with
        | some (_, rest) =>
          let remaining := trimChars rest
          if ¬ remaining = [] ∧ ¬ startsWithSlashSlash remaining then
            match parseInstruction remaining addr with
            | .ok i => do
              instructions := instructions ++ [i]
              addr := addr + 1
            | .error e =>
              .error ("Error on line " ++ toString lineNum ++ ": " ++ e)
        | none =>
          match parseInstruction processed addr with
          | .ok i => do
            instructions := instructions ++ [i]
            addr := addr + 1
          | .error e => .error ("Error on line " ++ toString lineNum ++ ": " ++ e)
      else
        match parseInstruction processed addr with
        | .ok i => do
          instructions := instructions ++ [i]
          addr := addr + 1
        | .error e => .error ("Error on line " ++ toString lineNum ++ ": " ++ e)
  return instructions

/-- `AssemblyLoader.load_from_string`: strip the text, split into lines, run
both passes. -/
def loadFromString (assemblyCode : String) :
    Except String (List Instr × List (String × Nat)) := do
  let lines := List.splitOnP (fun c => c = '\n') (trimChars assemblyCode.data)
  let labels := loaderPassOne lines
  let instructions ← loaderPassTwo lines
  return (instructions, labels)

/-- A machine as `VirtualMachine.load_program_string` builds it: fresh CPU
(32 registers), default `Memory()`, the loaded program and label table,
`pc = 0`.  `run` then flips the state to `Running`. -/
def mkMachine (instructions : List Instr) (labels : List (String × Nat)) :
    Machine :=
  { registers := List.replicate 32 0
  , pc := 0
  , mode := .running
  , haltReason := none
  , instructionCount := 0
  , cycleCount := 0
  , inputBuffer := List.replicate 256 0
  , inputWritePos := 0
  , inputReadPos := 0
  , mem := mkMem 0x8000 0x4000
  , program := instructions
  , labels := labels
  , gpu := none
  , stdinChar := 0 }

/-- Iterate `step` at most `n` times (the bounded driver loop). -/
def Machine.stepN (m : Machine) (n : Nat) : Machine :=
  match n with
  | 0 => m
  | n + 1 =>
    let (m1, cont) := m.step
    if cont then m1.stepN n else m1

/-! ### `src/compiler/symbol_table.py` — `MemoryManager`

The segregated free-list allocator over static RAM.  Free segments live in
four size buckets, sorted by start address.  The intrusive `prev`/`next`
neighbour links are used only by `free_memory`'s coalescing, which no checked
property touches; likewise the `symbol_to_segment` owner table is only read
back by `free_memory`.  Both are therefore elided: a segment is its address
interval, and `allocate_memory` is modelled by its returned start address
together with its updates to the free buckets (remove the chosen segment,
re-insert the split remainder). -/

/-- `MemorySegment` (the interval part): inclusive `[startAddress, endAddress]`. -/
structure Seg where
  startAddress : Int
  endAddress : Int
deriving DecidableEq, Repr

/-- `MemorySegment.size`. -/
def Seg.size (s : Seg) : Int := s.endAddress - s.startAddress + 1

/-- The four free buckets (index 0..3), each sorted by start address. -/
structure MMState where
  buckets : List (List Seg)
deriving Repr

/-- `MemoryManager._get_size_bucket`: sizes 1–4 ↦ 0, 5–16 ↦ 1, 17–64 ↦ 2,
65+ ↦ 3; anything else (size ≤ 0) falls back to the largest bucket. -/
def getSizeBucket (size : Int) : Nat :=
  if 1 ≤ size ∧ size ≤ 4 then 0
  else if 5 ≤ size ∧ size ≤ 16 then 1
  else if 17 ≤ size ∧ size ≤ 64 then 2
  else if 65 ≤ size then 3
  else 3

/-- Bucket access. -/
def MMState.bucket (m : MMState) (i : Nat) : List Seg := m.buckets.getD i []

/-- `bisect.insort` by start address. -/
def insortByStart (s : Seg) : List Seg → List Seg
  | [] => [s]
  | t :: rest =>
    if t.startAddress ≤ s.startAddress then t :: insortByStart s rest
    else s :: t :: rest

/-- Replace bucket `i`. -/
def MMState.setBucket (m : MMState) (i : Nat) (b : List Seg) : MMState :=
  ⟨m.buckets.set i b⟩

/-- `MemoryManager._add_to_bucket`. -/
def MMState.addToBucket (m : MMState) (s : Seg) : MMState :=
  let i := getSizeBucket s.size
  m.setBucket i (insortByStart s (m.bucket i))

/-- `MemoryManager._remove_from_bucket` (removal by equality; distinct free
segments have distinct starts). -/
def MMState.removeFromBucket (m : MMState) (s : Seg) : MMState :=
  let i := getSizeBucket s.size
  m.setBucket i ((m.bucket i).erase s)

/-- `MemoryManager.__init__` with one free segment covering all of static
RAM. -/
def mkMM (ramStart ramSize : Int) : MMState :=
  MMState.addToBucket ⟨[[], [], [], []]⟩ ⟨ramStart, ramStart + ramSize - 1⟩

/-- The loop body of `_find_best_fit_in_bucket`: keep the smallest segment of
sufficient size, stopping early on an exact fit. -/
def bestFitLoop (required : Int) : List Seg → Option Seg → Option Seg
  | [], best => best
  | s :: rest, best =>
    if required ≤ s.size ∧ (match best with
                            | none => true
                            | some b => decide (s.size < b.size)) = true then
      if s.size = required then some s
      else bestFitLoop required rest (some s)
    else bestFitLoop required rest best

/-- `MemoryManager._find_best_fit_in_bucket`. -/
def MMState.findBestFitInBucket (m : MMState) (bucketId : Nat) (required : Int) :
    Option Seg :=
  bestFitLoop required (m.bucket bucketId) none

/-- The fallback loop of `_find_suitable_segment` over the larger buckets. -/
def searchLargerBuckets (m : MMState) (required : Int) : List Nat → Option Seg
  | [] => none
  | b :: rest =>
    if m.bucket b ≠ [] then
      match m.findBestFitInBucket b required with
      | some s => some s
      | none => searchLargerBuckets m required rest
    else searchLargerBuckets m required rest

/-- `MemoryManager._find_suitable_segment`: best fit in the target bucket,
then the larger buckets in order. -/
def MMState.findSuitableSegment (m : MMState) (size : Int) : Option Seg :=
  let target := getSizeBucket size
  match m.findBestFitInBucket target size with
  | some s => some s
  | none => searchLargerBuckets m size (List.range' (target + 1) (4 - (target + 1)))

/-- `MemoryManager._split_segment` on the bucket state: the remainder beyond
the allocation returns to its bucket (the allocated front part keeps the
original start address). -/
def MMState.splitRemainder (m : MMState) (s : Seg) (allocationSize : Int) :
    MMState :=
  if s.size ≤ allocationSize then m
  else m.addToBucket ⟨s.startAddress + allocationSize, s.endAddress⟩

/-- `MemoryManager.allocate_memory`: find a suitable segment, pull it out of
the free lists, split off the remainder, return its start address (`none`
reports "no fit"). -/
def MMState.allocateMemory (m : MMState) (size : Int) : Option Int × MMState :=
  match m.findSuitableSegment size with
  | none => (none, m)
  | some seg =>
    let m := m.removeFromBucket seg
    let m := m.splitRemainder seg size
    (some seg.startAddress, m)

/-! ### `src/compiler/symbol_table.py` — `RegisterAllocator`

Symbol names reaching the allocator are the symbol table's scoped names
(`name$scope{id}$level{l}`), which always contain `$`; the allocator's own
temporaries are named `__temp_{k}` from a monotone counter.  The two name
spaces are disjoint in the source, which the embedding records by tagging
them with distinct constructors.  The emitter callback is modelled by
accumulating the emitted spill/reload instructions; the symbol-table
resolution consulted by `access_symbol` is an external collaborator whose
outcome (the scoped lookup name, whether the resolved symbol's storage is
RAM, and its RAM address) is passed in as the operation's arguments. -/

/-- A symbol name as the allocator sees it. -/
inductive SymName where
  | user (s : String)
  | temp (n : Nat)
deriving DecidableEq, Repr

/-- A spill/reload instruction emitted through the allocator's callback:
`LOAD reg, i:addr` or `READ i:addr, reg`. -/
inductive EmitI where
  | load (reg : Nat) (addr : Int)
  | readMem (addr : Int) (reg : Nat)
deriving DecidableEq, Repr

/-- `RegisterAllocator` state (`__init__`): the bi-maps, usage counters,
spill table, temporary registry and counter, the two allocation cursors, the
per-scope availability stack (head = innermost scope), scope-depth and
liveness tracking, the static-RAM allocator used for spill slots, and the
emitted instruction log. -/
structure RAState where
  regToSymbol : List (Nat × SymName)
  symbolToRegister : List (SymName × Nat)
  usageCount : List (Nat × Nat)
  spilledSymbols : List (SymName × Int)
  tempRegs : List Nat
  tempCounter : Nat
  nextLocal : Nat
  nextParam : Nat
  availStack : List (List Nat)
  scopeDepth : List (Nat × Nat)
  liveRegs : List Nat
  liveUses : List (Nat × List SymName)
  mm : MMState
  emitted : List EmitI
deriving Repr

/-- `RESERVED_REGISTERS = {0..5}`. -/
def reservedRegisters : List Nat := [0, 1, 2, 3, 4, 5]

/-- A fresh `RegisterAllocator` (allocatable pool R6–R31, cursors at 31 and
2, one base availability scope, the compiler's static-RAM `MemoryManager`). -/
def initialRA : RAState :=
  { regToSymbol := []
  , symbolToRegister := []
  , usageCount := []
  , spilledSymbols := []
  , tempRegs := []
  , tempCounter := 0
  , nextLocal := 31
  , nextParam := 2
  , availStack := [List.range' 6 26]
  , scopeDepth := []
  , liveRegs := []
  , liveUses := []
  , mm := mkMM 0x1000 0x1000
  , emitted := [] }

/-- `get_available_registers` (the innermost scope's set). -/
def RAState.availTop (s : RAState) : List Nat := s.availStack.headD []

/-- `mark_register_used`. -/
def RAState.markUsed (s : RAState) (r : Nat) : RAState :=
  { s with availStack :=
      match s.availStack with
      | [] => []
      | t :: rest => sdel t r :: rest }

/-- `mark_register_available`. -/
def RAState.markAvailable (s : RAState) (r : Nat) : RAState :=
  { s with availStack :=
      match s.availStack with
      | [] => []
      | t :: rest => sadd t r :: rest }

/-- `mark_register_consumed` with no consuming symbol (the unconditional
branch): drop liveness and the dependents entry. -/
def RAState.markConsumed (s : RAState) (r : Nat) : RAState :=
  { s with liveRegs := sdel s.liveRegs r, liveUses := aerase s.liveUses r }

/-- `mark_register_live`. -/
def RAState.markLive (s : RAState) (r : Nat) (dep : Option SymName) : RAState :=
  let s := { s with liveRegs := sadd s.liveRegs r }
  match dep with
  | none => s
  | some d =>
    { s with liveUses := aset s.liveUses r (sadd ((alookup s.liveUses r).getD []) d) }

/-- `is_register_live`. -/
def RAState.isLive (s : RAState) (r : Nat) : Bool := smem s.liveRegs r

/-- `_assign_register_to_symbol`: set both directions and zero the usage
counter. -/
def RAState.assign (s : RAState) (register : Nat) (symbolName : SymName) :
    RAState :=
  { s with regToSymbol := aset s.regToSymbol register symbolName
         , symbolToRegister := aset s.symbolToRegister symbolName register
         , usageCount := aset s.usageCount register 0 }

/-- `_free_register_internal`: with `delete_symbol` the bi-map pair and the
usage counter go away; in every case the register becomes available, is
marked consumed, and loses its scope-depth entry. -/
def RAState.freeRegisterInternal (s : RAState) (register : Nat)
    (deleteSymbol : Bool) : RAState :=
  let s :=
    match alookup s.regToSymbol register, deleteSymbol with
    | some symbol, true =>
      { s with regToSymbol := aerase s.regToSymbol register
             , symbolToRegister := aerase s.symbolToRegister symbol
             , usageCount := aerase s.usageCount register }
    | _, _ => s
  let s := s.markAvailable register
  let s := s.markConsumed register
  { s with scopeDepth := aerase s.scopeDepth register }

/-- `free_register` (public). -/
def RAState.freeRegister (s : RAState) (register : Nat) : RAState :=
  s.freeRegisterInternal register false

/-- `spill_symbol`: allocate a spill slot from static RAM, emit
`LOAD reg, i:addr`, record the spill, drop the temp registry entry and free
the register — without deleting the bi-map pair (`delete_symbol = False`). -/
def RAState.spillSymbolOp (s : RAState) (symbolName : SymName) :
    RAState × Bool :=
  match alookup s.symbolToRegister symbolName with
  | none => (s, false)
  | some reg =>
    let (addrOpt, mm2) := s.mm.allocateMemory 1
    let s := { s with mm := mm2 }
    match addrOpt with
    | none => (s, false)
    | some ramAddr =>
      let s := { s with emitted := s.emitted ++ [EmitI.load reg ramAddr] }
      let s := { s with spilledSymbols := aset s.spilledSymbols symbolName ramAddr }
      let s := { s with tempRegs := sdel s.tempRegs reg }
      (s.freeRegister reg, true)

/-- The `while` loop of `_allocate_parameter_register` (fuel-bounded; the
cursor climbs by one per iteration and the loop ends at 31). -/
def allocParamLoop (s : RAState) : Nat → RAState × Option Nat
  | 0 => (s, none)
  | fuel + 1 =>
    if s.nextParam < 31 then
      let r := s.nextParam
      if (alookup s.regToSymbol r).isNone ∧ ¬ reservedRegisters.contains r then
        ({ s with nextParam := r + 1 }, some r)
      else allocParamLoop { s with nextParam := r + 1 } fuel
    else (s, none)

/-- `_allocate_parameter_register`. -/
def RAState.allocateParameterRegister (s : RAState) : RAState × Option Nat :=
  allocParamLoop s 32

/-- The `while` loop of `_allocate_local_register` (cursor descends by one
per iteration, stopping below 6; `available` is captured once at entry). -/
def allocLocalLoop (s : RAState) (available : List Nat) :
    Nat → RAState × Option Nat
  | 0 => (s, none)
  | fuel + 1 =>
    if 6 ≤ s.nextLocal then
      let r := s.nextLocal
      if (alookup s.regToSymbol r).isNone ∧ ¬ reservedRegisters.contains r ∧
          available.contains r ∧ ¬ s.isLive r then
        ({ s with nextLocal := r - 1 }, some r)
      else allocLocalLoop { s with nextLocal := r - 1 } available fuel
    else (s, none)

/-- `_allocate_local_register`. -/
def RAState.allocateLocalRegister (s : RAState) : RAState × Option Nat :=
  allocLocalLoop s s.availTop 32

/-- The LRU scan of `_spill_and_allocate` / `_spill_lru_and_allocate`: over
the given pool, among registers bound to a symbol (excluding the ALU pair
and, on the first pass, live registers), keep the first register of strictly
least usage count. -/
def lruScan (s : RAState) (pool : List Nat) (requireNonLive : Bool) :
    Option Nat :=
  (pool.foldl (fun (acc : Option (Nat × Nat)) r =>
    if (alookup s.regToSymbol r).isSome ∧ ¬ r ∈ [0, 1] ∧
        (¬ requireNonLive ∨ ¬ s.isLive r = true) then
      let usage := (alookup s.usageCount r).getD 0
      match acc with
      | none => some (usage, r)
      | some (mu, _) => if usage < mu then some (usage, r) else acc
    else acc) none).map (fun p => p.2)

/-- `_spill_and_allocate`: pick the LRU victim from the direction-dependent
pool (parameters scan R6–R30 upward, locals R31–R7 downward), preferring
non-live registers but falling back to live ones; spill it, then bind the
register to the requesting symbol. -/
def RAState.spillAndAllocate (s : RAState) (symbolName : SymName)
    (isParameter : Bool) : RAState × Option Nat :=
  let pool := if isParameter then List.range' 6 25 else (List.range' 7 25).reverse
  let lru :=
    match lruScan s pool true with
    | some r => some r
    | none => lruScan s pool false
  match lru with
  | none => (s, none)
  | some lruReg =>
    match alookup s.regToSymbol lruReg with
    | none => (s, none)
    | some lruSymbol =>
      let (s, ok) := s.spillSymbolOp lruSymbol
      if ok then
        let s := s.assign lruReg symbolName
        let s := s.markUsed lruReg
        let s := { s with scopeDepth := aset s.scopeDepth lruReg (s.availStack.length - 1) }
        (s, some lruReg)
      else (s, none)

/-- `allocate_register_for_symbol`: an already-bound symbol keeps its
register; otherwise try the cursor allocation for the register class, and
fall back to spilling. -/
def RAState.allocateRegisterForSymbol (s : RAState) (symbolName : SymName)
    (isParameter : Bool) : RAState × Option Nat :=
  match alookup s.symbolToRegister symbolName with
  | some r => (s, some r)
  | none =>
    let (s, regOpt) :=
      if isParameter then s.allocateParameterRegister
      else s.allocateLocalRegister
    match regOpt with
    | some reg =>
      let s := s.assign reg symbolName
      let s := s.markUsed reg
      let s := { s with scopeDepth := aset s.scopeDepth reg (s.availStack.length - 1) }
      (s, some reg)
    | none => s.spillAndAllocate symbolName isParameter

/-- `_spill_lru_and_allocate`: single non-live LRU scan over R31–R7; spill
the victim and bind a fresh temporary to its register. -/
def RAState.spillLruAndAllocate (s : RAState) : RAState × Option Nat :=
  match lruScan s ((List.range' 7 25).reverse) true with
  | none => (s, none)
  | some lruReg =>
    let (s, ok) :=
      match alookup s.regToSymbol lruReg with
      | some lruSymbol => s.spillSymbolOp lruSymbol
      | none => (s, true)
    if ok then
      let tempName := SymName.temp s.tempCounter
      let s := { s with tempCounter := s.tempCounter + 1 }
      let s := s.assign lruReg tempName
      let s := { s with tempRegs := sadd s.tempRegs lruReg }
      let s := s.markUsed lruReg
      let s := { s with scopeDepth := aset s.scopeDepth lruReg (s.availStack.length - 1) }
      (s, some lruReg)
    else (s, none)

/-- `allocate_temporary_register`: pick the highest available register that
is neither live nor bound; otherwise spill the LRU non-live register. -/
def RAState.allocateTemporaryRegister (s : RAState) : RAState × Option Nat :=
  let available := s.availTop
  let candidates := available.filter
    (fun r => ¬ s.isLive r = true ∧ (alookup s.regToSymbol r).isNone)
  match candidates.max? with
  | some reg =>
    let tempName := SymName.temp s.tempCounter
    let s := { s with tempCounter := s.tempCounter + 1 }
    let s := { s with tempRegs := sadd s.tempRegs reg }
    let s := s.assign reg tempName
    let s := s.markUsed reg
    let s := { s with scopeDepth := aset s.scopeDepth reg (s.availStack.length - 1) }
    (s, some reg)
  | none => s.spillLruAndAllocate

/-- `free_temporary_register`: unmark live, drop from the temp registry, free
with symbol deletion, and move the local cursor back up when possible. -/
def RAState.freeTemporaryRegister (s : RAState) (register : Nat) : RAState :=
  if smem s.tempRegs register then
    let s := s.markConsumed register
    let s := { s with tempRegs := sdel s.tempRegs register }
    let s := s.freeRegisterInternal register true
    if s.nextLocal < register then { s with nextLocal := register } else s
  else s

/-- `access_symbol`: a register-resident symbol bumps its usage counter; a
spilled or RAM-resident one gets a fresh register, a reload emission, a
rebind, and loses its spill entry.  `symInRam` and `symAddr` are the
symbol-table resolution outcome (see the section comment). -/
def RAState.accessSymbol (s : RAState) (lookupName : SymName)
    (symInRam : Bool) (symAddr : Int) : RAState × Option Nat :=
  match alookup s.symbolToRegister lookupName with
  | some reg =>
    let bumped := aset s.usageCount reg ((alookup s.usageCount reg).getD 0 + 1)
    ({ s with usageCount := bumped }, some reg)
  | none =>
    if (alookup s.spilledSymbols lookupName).isSome ∨ symInRam then
      let (s, regOpt) := s.allocateRegisterForSymbol lookupName false
      match regOpt with
      | none => (s, none)
      | some reg =>
        let ramAddr :=
          if symInRam then symAddr
          else (alookup s.spilledSymbols lookupName).getD 0
        let s := { s with emitted := s.emitted ++ [EmitI.readMem ramAddr reg] }
        let s := s.assign reg lookupName
        let s := s.markUsed reg
        let s := { s with scopeDepth := aset s.scopeDepth reg (s.availStack.length - 1) }
        let s := s.markLive reg (some lookupName)
        let s :=
          if (alookup s.spilledSymbols lookupName).isSome then
            { s with spilledSymbols := aerase s.spilledSymbols lookupName }
          else s
        (s, some reg)
    else (s, none)

/-- One public allocator operation, as invoked by the code generator:
allocate a register for a (scoped) named symbol, allocate a temporary,
access a symbol, spill a symbol, free a register, free a temporary. -/
inductive RAOp where
  | allocSym (name : String) (isParameter : Bool)
  | allocTemp
  | access (lookupName : String) (symInRam : Bool) (symAddr : Int)
  | spill (name : String)
  | freeReg (register : Nat)
  | freeTemp (register : Nat)
deriving DecidableEq, Repr

/-- Apply one operation (return values discarded). -/
def applyRAOp (s : RAState) (op : RAOp) : RAState :=
  match op with
  | .allocSym name isParameter => (s.allocateRegisterForSymbol (.user name) isParameter).1
  | .allocTemp => s.allocateTemporaryRegister.1
  | .access lookupName symInRam symAddr => (s.accessSymbol (.user lookupName) symInRam symAddr).1
  | .spill name => (s.spillSymbolOp (.user name)).1
  | .freeReg register => s.freeRegister register
  | .freeTemp register => s.freeTemporaryRegister register

/-- Run a sequence of operations from a fresh allocator. -/
def runRAOps (ops : List RAOp) : RAState :=
  ops.foldl applyRAOp initialRA

/-! ### Definitions used by the theorem statements -/

/-- All free segments: the union of the four size buckets. -/
def MMState.freeSegs (m : MMState) : List Seg :=
  m.buckets.foldr (fun a b => a ++ b) []

/-- The invariant `_add_to_bucket` maintains: four buckets, each holding only
segments whose size class is that bucket. -/
def MMState.wellBucketed (m : MMState) : Prop :=
  m.buckets.length = 4 ∧ ∀ i, i < 4 → ∀ s ∈ m.bucket i, getSizeBucket s.size = i

/-- Forward bi-map consistency: every register bound in `register_to_symbol`
maps to a symbol whose `symbol_to_register` entry is that same register. -/
def RAState.regMapSound (s : RAState) : Prop :=
  ∀ r sym, alookup s.regToSymbol r = some sym →
    alookup s.symbolToRegister sym = some r

/-- Temp-name freshness: every `__temp_{n}` bound in `symbol_to_register`
predates the counter. -/
def RAState.tempNamesFresh (s : RAState) : Prop :=
  ∀ n r, alookup s.symbolToRegister (SymName.temp n) = some r → n < s.tempCounter

/-- The repo's own `jal_basic_call` test program
(`tests/test_jump_instructions.py`, which expects R2 = 1 afterwards). -/
def jalTestProgram : String :=
  "JAL subroutine\nMVR i:99, 3\nHALT\nsubroutine:\nMVR i:42, 5\nHALT"

/-- The machine obtained by loading `jalTestProgram`. -/
def jalTestMachine : Machine :=
  match loadFromString jalTestProgram with
  | .ok (instructions, labels) => mkMachine instructions labels
  | .error _ => mkMachine [] []

/-- 27 local declarations in one scope: the 27th exhausts the descending
cursor and forces `_spill_and_allocate`. -/
def trace27 : List RAOp :=
  (List.range 27).map (fun i => RAOp.allocSym ("v" ++ toString i) false)

/-- The eight GPU opcodes the CPU routes to `GPU.execute_command`. -/
def gpuCommandOpcodes : List String :=
  ["DRLINE", "DRGRD", "CLRGRID", "LDSPR", "DRSPR", "LDTXT", "DRTXT", "SCRLBFR"]

/-! ## Shared lemmas -/

theorem alookup_nil {α β : Type} [DecidableEq α] (k : α) :
    alookup ([] : List (α × β)) k = none := rfl

theorem alookup_cons {α β : Type} [DecidableEq α] (p : α × β) (rest : List (α × β)) (k : α) :
    alookup (p :: rest) k = if p.1 = k then some p.2 else alookup rest k := by
  by_cases h : p.1 = k <;> simp [alookup, List.find?_cons, h]

theorem alookup_aset_self {α β : Type} [DecidableEq α] (l : List (α × β)) (k : α) (v : β) :
    alookup (aset l k v) k = some v := by
  induction l with
  | nil => simp [aset, alookup_cons]
  | cons p rest ih =>
    by_cases h : p.1 = k
    · simp [aset, h, alookup_cons]
    · simp [aset, h, alookup_cons, ih]

theorem alookup_aset_ne {α β : Type} [DecidableEq α] (l : List (α × β)) (k k' : α) (v : β)
    (h : ¬ k' = k) : alookup (aset l k v) k' = alookup l k' := by
  have h2 : ¬ k = k' := fun hh => h hh.symm
  induction l with
  | nil => simp [aset, alookup_cons, alookup_nil, h2]
  | cons p rest ih =>
    by_cases hp : p.1 = k
    · subst hp
      simp [aset, alookup_cons, h2]
    · simp [aset, hp, alookup_cons, ih]

theorem alookup_aerase_self {α β : Type} [DecidableEq α] (l : List (α × β)) (k : α) :
    alookup (aerase l k) k = none := by
  induction l with
  | nil => simp [aerase, alookup_nil]
  | cons p rest ih =>
    by_cases h : p.1 = k
    · simp [aerase, h, ih]
    · simp [aerase, h, alookup_cons, ih]

theorem alookup_aerase_ne {α β : Type} [DecidableEq α] (l : List (α × β)) (k k' : α)
    (h : ¬ k' = k) : alookup (aerase l k) k' = alookup l k' := by
  have h2 : ¬ k = k' := fun hh => h hh.symm
  induction l with
  | nil => simp [aerase]
  | cons p rest ih =>
    by_cases hp : p.1 = k
    · subst hp
      simp [aerase, alookup_cons, h2, ih]
    · simp [aerase, hp, alookup_cons, ih]

theorem alookup_aerase_some {α β : Type} [DecidableEq α] {l : List (α × β)} {k k' : α}
    {v : β} (h : alookup (aerase l k) k' = some v) :
    ¬ k' = k ∧ alookup l k' = some v := by
  by_cases hk : k' = k
  · subst hk
    rw [alookup_aerase_self] at h
    exact absurd h (by simp)
  · exact ⟨hk, by rwa [alookup_aerase_ne l k k' hk] at h⟩

/-! ## C10 — the input ring buffer loses 256 unread characters -/

theorem addInputChar_fold (chars : List Nat) :
    ∀ m : Machine, m.inputBuffer.length = 256 → m.inputWritePos < 256 →
      (chars.foldl Machine.addInputChar m).inputWritePos =
        (m.inputWritePos + chars.length) % 256 ∧
      (chars.foldl Machine.addInputChar m).inputReadPos = m.inputReadPos ∧
      (chars.foldl Machine.addInputChar m).inputBuffer.length = 256 := by
  induction chars with
  | nil =>
    intro m hlen hw
    simp only [List.foldl_nil, List.length_nil, Nat.add_zero]
    exact ⟨(Nat.mod_eq_of_lt hw).symm, by trivial, hlen⟩
  | cons c rest ih =>
    intro m hlen hw
    have hstep : (Machine.addInputChar m c).inputWritePos = (m.inputWritePos + 1) % 256 := by
      simp [Machine.addInputChar, hlen]
    have hlen1 : (Machine.addInputChar m c).inputBuffer.length = 256 := by
      simp [Machine.addInputChar, hlen]
    have hw1 : (Machine.addInputChar m c).inputWritePos < 256 := by
      rw [hstep]; exact Nat.mod_lt _ (by norm_num)
    obtain ⟨h1, h2, h3⟩ := ih (Machine.addInputChar m c) hlen1 hw1
    refine ⟨?_, ?_, h3⟩
    · rw [List.foldl_cons] at *
      rw [h1, hstep, Nat.mod_add_mod]
      congr 1
      simp [List.length_cons]
      omega
    · rw [List.foldl_cons] at *
      rw [h2]
      simp [Machine.addInputChar]

/-- C10: adding exactly 256 characters to an empty input ring buffer with no
intervening reads wraps the write pointer back onto the read pointer; the
buffer then looks empty and the non-blocking read returns 0 with no state
change — all 256 characters are lost (`add_input_char` never checks for a
full buffer). -/
theorem ring_buffer_overrun_loses_all_input (m : Machine) (chars : List Nat)
    (hlen : m.inputBuffer.length = 256)
    (hw : m.inputWritePos < 256)
    (hempty : m.inputReadPos = m.inputWritePos)
    (hn : chars.length = 256) :
    (chars.foldl Machine.addInputChar m).inputWritePos =
      (chars.foldl Machine.addInputChar m).inputReadPos ∧
    ((chars.foldl Machine.addInputChar m).readInputChar).1 = 0 ∧
    ((chars.foldl Machine.addInputChar m).readInputChar).2 =
      chars.foldl Machine.addInputChar m := by
  obtain ⟨h1, h2, _⟩ := addInputChar_fold chars m hlen hw
  have heq : (chars.foldl Machine.addInputChar m).inputWritePos =
      (chars.foldl Machine.addInputChar m).inputReadPos := by
    rw [h1, h2, hn, hempty]
    rw [Nat.add_mod_right]
    exact Nat.mod_eq_of_lt hw
  refine ⟨heq, ?_, ?_⟩ <;> simp [Machine.readInputChar, heq.symm]

/-- Witness for C10 at a concrete machine and input sequence. -/
theorem ring_buffer_overrun_witness :
    ((List.replicate 256 65).foldl Machine.addInputChar (mkMachine [] [])).inputWritePos =
      ((List.replicate 256 65).foldl Machine.addInputChar (mkMachine [] [])).inputReadPos ∧
    (((List.replicate 256 65).foldl Machine.addInputChar (mkMachine [] [])).readInputChar).1 = 0 := by
  have h := ring_buffer_overrun_loses_all_input (mkMachine [] []) (List.replicate 256 65)
    (by simp [mkMachine]) (by simp [mkMachine]) (by simp [mkMachine]) (by simp)
  exact ⟨h.1, h.2.1⟩

/-! ## C1 — JAL stores the return address in R1, not R2 -/

/-- C1 (falsified; code bug): executing the repo's own `jal_basic_call` test
program, the JAL at address 0 leaves the return address 1 in register **1**
(`SECONDARY_RETURN_REG`) and register 2 still 0 — the compiler's epilogue
(`JMP 2`) and the repo's tests expect it in R2.  After the full run the
subroutine has executed (R5 = 42) but R2 never received the return address. -/
theorem jal_return_address_lands_in_r1 :
    ((jalTestMachine.step).1.registers.getD 1 0 = 1 ∧
     (jalTestMachine.step).1.registers.getD 2 0 = 0 ∧
     (jalTestMachine.step).1.pc = 3) ∧
    ((jalTestMachine.stepN 10).mode = CpuMode.stopped ∧
     (jalTestMachine.stepN 10).registers.getD 2 0 = 0 ∧
     (jalTestMachine.stepN 10).registers.getD 1 0 = 1 ∧
     (jalTestMachine.stepN 10).registers.getD 5 0 = 42) := by
  decide

/-! ## C3 — unknown opcodes pass the loader and fail only at execution -/

/-- C3 counterexample: the loader accepts the unknown opcode `FOO` without
raising — there is no load-time opcode check. -/
theorem unknown_opcode_accepted_by_loader :
    (loadFromString "FOO 1, 2").toOption =
      some ([⟨"FOO", [Opnd.num 1, Opnd.num 2], 0⟩], []) := by
  decide

theorem decodeOp_none (u : String) (h : ¬ u ∈ knownOpcodes) :
    decodeOp u = none := by
  simp only [knownOpcodes, List.mem_cons, List.not_mem_nil, or_false] at h
  push_neg at h
  obtain ⟨h1, h2, h3, h4, h5, h6, h7, h8, h9, h10, h11, h12, h13, h14, h15,
    h16, h17, h18, h19, h20, h21, h22, h23, h24, h25, h26, h27, h28, h29, h30⟩ := h
  unfold decodeOp
  rw [if_neg h1, if_neg h2, if_neg h3, if_neg h4, if_neg h5, if_neg h6,
    if_neg h7, if_neg h8, if_neg h9, if_neg h10, if_neg h11, if_neg h12,
    if_neg h13, if_neg h14, if_neg h15, if_neg h16, if_neg h17, if_neg h18,
    if_neg h19, if_neg h20, if_neg h21, if_neg h22]
  rw [if_neg (by simp [h23, h24, h25, h26, h27, h28, h29, h30])]

theorem dispatchOpcode_none (m : Machine) (i : Instr) (u : String)
    (h : ¬ u ∈ knownOpcodes) : dispatchOpcode m i u = none := by
  unfold dispatchOpcode
  rw [decodeOp_none u h]

/-- C3 (amended): the loader performs no opcode validation; an instruction
with an opcode outside the handler table executes as a runtime fatal —
`_execute_instruction` raises `Unknown instruction`, `step` records
`state = Error` with that reason, and nothing advances. -/
theorem unknown_opcode_is_runtime_fatal (m : Machine) (i : Instr)
    (hrun : m.mode = .running) (hfetch : m.fetch = some i)
    (hunk : ¬ upStr i.opcode ∈ knownOpcodes) :
    (m.step).1.mode = .error ∧
    (m.step).1.haltReason = some ("Unknown instruction: " ++ i.opcode) ∧
    (m.step).1.pc = m.pc ∧
    (m.step).1.registers = m.registers ∧
    (m.step).2 = false := by
  have hd : dispatchOpcode m i (upStr i.opcode) = none :=
    dispatchOpcode_none m i _ hunk
  have hexec : m.executeInstruction i =
      (m, some ("Unknown instruction: " ++ i.opcode)) := by
    unfold Machine.executeInstruction
    rw [hd]
  unfold Machine.step
  rw [if_neg (by simp [hrun]), hfetch]
  simp [hexec]

/-- Witness for C3: a concrete program whose only instruction is `FOO`. -/
theorem unknown_opcode_is_runtime_fatal_witness :
    ((mkMachine [⟨"FOO", [], 0⟩] []).step).1.mode = .error ∧
    ((mkMachine [⟨"FOO", [], 0⟩] []).step).1.haltReason =
      some ("Unknown instruction: " ++ "FOO") ∧
    ((mkMachine [⟨"FOO", [], 0⟩] []).step).1.pc = (mkMachine [⟨"FOO", [], 0⟩] []).pc ∧
    ((mkMachine [⟨"FOO", [], 0⟩] []).step).1.registers =
      (mkMachine [⟨"FOO", [], 0⟩] []).registers ∧
    ((mkMachine [⟨"FOO", [], 0⟩] []).step).2 = false :=
  unknown_opcode_is_runtime_fatal (mkMachine [⟨"FOO", [], 0⟩] []) ⟨"FOO", [], 0⟩
    (by decide) (by decide) (by decide)

/-! ## C6 — `Memory.write` obeys the region model -/

theorem mask16_lt (a : Int) : mask16 a < 65536 := by
  unfold mask16
  have h1 : 0 ≤ Int.emod a 65536 := Int.emod_nonneg a (by norm_num)
  have h2 : Int.emod a 65536 < 65536 := Int.emod_lt_of_pos a (by norm_num)
  omega

/-- C6: every `Memory.write` with the standard region table obeys the region
model — a write whose 16-bit-masked address lands in ROM raises the read-only
error, one landing outside every region raises the invalid-address error
(RAM untouched in both cases), and a RAM write stores the 16-bit-masked
value at the masked address. -/
theorem memory_write_region_model (mem : Mem) (addr value : Int)
    (hreg : mem.regions = mkRegions 0x8000 0x4000)
    (hlen : mem.ram.length = 0x8000) :
    (0x8000 ≤ mask16 addr → mask16 addr < 0xC000 →
      (mem.write addr value).2 = some (.readOnly "Cannot write to read-only memory") ∧
      (mem.write addr value).1.ram = mem.ram) ∧
    (0xC000 ≤ mask16 addr →
      (mem.write addr value).2 = some (.invalidAddress "Address not in any memory region") ∧
      (mem.write addr value).1.ram = mem.ram) ∧
    (mask16 addr < 0x8000 →
      (mem.write addr value).2 = none ∧
      (mem.write addr value).1.ram = mem.ram.set (mask16 addr) (mask16 value)) := by
  have hlt := mask16_lt addr
  have hfind : ∀ a : Nat,
      (mkRegions 0x8000 0x4000).find? (fun r => r.containsAddr a) =
        (if a < 0x8000 then some ⟨0x0000, 0x8000, false, "RAM"⟩
         else if a < 0xC000 then some ⟨0x8000, 0x4000, true, "ROM"⟩
         else none) := by
    intro a
    unfold mkRegions
    by_cases h1 : a < 0x8000
    · rw [List.find?_cons_of_pos _ (by
        simp [MemoryRegion.containsAddr, MemoryRegion.endAddress]; omega)]
      simp [h1]
    · rw [List.find?_cons_of_neg _ (by
        simp [MemoryRegion.containsAddr, MemoryRegion.endAddress]; omega)]
      by_cases h2 : a < 0xC000
      · rw [List.find?_cons_of_pos _ (by
          simp [MemoryRegion.containsAddr, MemoryRegion.endAddress]; omega)]
        simp [h1, h2]
      · rw [List.find?_cons_of_neg _ (by
          simp [MemoryRegion.containsAddr, MemoryRegion.endAddress]; omega)]
        simp [h1, h2]
  refine ⟨?_, ?_, ?_⟩
  · intro hlo hhi
    simp only [Mem.write, Mem.getRegion, hreg, hfind]
    rw [if_neg (by omega), if_pos (by omega)]
    simp
  · intro hlo
    simp only [Mem.write, Mem.getRegion, hreg, hfind]
    rw [if_neg (by omega), if_neg (by omega)]
    simp
  · intro hhi
    simp only [Mem.write, Mem.getRegion, hreg, hfind]
    rw [if_pos (by omega)]
    simp [hlen, hhi]

/-- Witness for C6 at the fresh memory and one concrete address per region
case: a ROM-region write, an unmapped write, and a RAM write. -/
theorem memory_write_region_model_witness :
    (((mkMem 0x8000 0x4000).write 0x9000 7).2 =
      some (.readOnly "Cannot write to read-only memory") ∧
     ((mkMem 0x8000 0x4000).write 0x9000 7).1.ram = (mkMem 0x8000 0x4000).ram) ∧
    (((mkMem 0x8000 0x4000).write 0xD000 7).2 =
      some (.invalidAddress "Address not in any memory region") ∧
     ((mkMem 0x8000 0x4000).write 0xD000 7).1.ram = (mkMem 0x8000 0x4000).ram) ∧
    (((mkMem 0x8000 0x4000).write 3 70005).2 = none ∧
     ((mkMem 0x8000 0x4000).write 3 70005).1.ram =
       (mkMem 0x8000 0x4000).ram.set 3 4469) := by
  have hlen : (mkMem 0x8000 0x4000).ram.length = 0x8000 := by
    show (List.replicate 0x8000 0).length = 0x8000
    rw [List.length_replicate]
  refine ⟨?_, ?_, ?_⟩
  · exact (memory_write_region_model (mkMem 0x8000 0x4000) 0x9000 7 rfl
      hlen).1 (by decide) (by decide)
  · exact (memory_write_region_model (mkMem 0x8000 0x4000) 0xD000 7 rfl
      hlen).2.1 (by decide)
  · have h := (memory_write_region_model (mkMem 0x8000 0x4000) 3 70005 rfl
      hlen).2.2 (by decide)
    have e1 : mask16 3 = 3 := by decide
    have e2 : mask16 70005 = 4469 := by decide
    rw [e1, e2] at h
    exact h

/-! ## C4 — division by zero is fatal and mutates nothing -/

/-- C4: a `DIV` whose second operand resolves to 0 raises
`Division by zero`: `step` ends in `state = Error` with that halt reason,
returns false (execution stops), and neither the registers (in particular R0
and R1), the program counter, nor the instruction counter change. -/
theorem div_by_zero_is_fatal (m : Machine) (i : Instr) (o1 o2 : Opnd) (va : Int)
    (hrun : m.mode = .running)
    (hfetch : m.fetch = some i)
    (hop : upStr i.opcode = "DIV")
    (hops : i.operands = [o1, o2])
    (ha : m.getOperandValue o1 = .ok va)
    (hb : m.getOperandValue o2 = .ok 0) :
    (m.step).1.mode = .error ∧
    (m.step).1.haltReason = some "Division by zero" ∧
    (m.step).1.registers = m.registers ∧
    (m.step).1.pc = m.pc ∧
    (m.step).1.instructionCount = m.instructionCount ∧
    (m.step).2 = false := by
  have hdisp : dispatchOpcode m i (upStr i.opcode) = some (execDIV m i.operands) := by
    rw [hop]
    rfl
  have hdiv : execDIV m i.operands = (m, some "Division by zero") := by
    rw [hops]
    simp [execDIV, tryE, ha, hb]
  have hexec : m.executeInstruction i = (m, some "Division by zero") := by
    unfold Machine.executeInstruction
    rw [hdisp, hdiv]
  unfold Machine.step
  rw [if_neg (by simp [hrun]), hfetch]
  simp [hexec]

/-- Witness for C4: `DIV i:5, i:0` as the whole program. -/
theorem div_by_zero_is_fatal_witness :
    ((mkMachine [⟨"DIV", [Opnd.imm 5, Opnd.imm 0], 0⟩] []).step).1.mode = .error ∧
    ((mkMachine [⟨"DIV", [Opnd.imm 5, Opnd.imm 0], 0⟩] []).step).1.haltReason =
      some "Division by zero" ∧
    ((mkMachine [⟨"DIV", [Opnd.imm 5, Opnd.imm 0], 0⟩] []).step).1.registers =
      (mkMachine [⟨"DIV", [Opnd.imm 5, Opnd.imm 0], 0⟩] []).registers ∧
    ((mkMachine [⟨"DIV", [Opnd.imm 5, Opnd.imm 0], 0⟩] []).step).1.pc =
      (mkMachine [⟨"DIV", [Opnd.imm 5, Opnd.imm 0], 0⟩] []).pc ∧
    ((mkMachine [⟨"DIV", [Opnd.imm 5, Opnd.imm 0], 0⟩] []).step).1.instructionCount =
      (mkMachine [⟨"DIV", [Opnd.imm 5, Opnd.imm 0], 0⟩] []).instructionCount ∧
    ((mkMachine [⟨"DIV", [Opnd.imm 5, Opnd.imm 0], 0⟩] []).step).2 = false :=
  div_by_zero_is_fatal (mkMachine [⟨"DIV", [Opnd.imm 5, Opnd.imm 0], 0⟩] [])
    ⟨"DIV", [Opnd.imm 5, Opnd.imm 0], 0⟩ (Opnd.imm 5) (Opnd.imm 0) 5
    rfl (by decide) (by decide) rfl rfl rfl

/-! ## C5 — `step` semantics: infrastructure -/

theorem setRegisterN_fst_pc (m : Machine) (r v : Int) :
    ((m.setRegisterN r v).1).pc = m.pc := by
  unfold Machine.setRegisterN
  split <;> rfl

theorem setRegisterN_fst_count (m : Machine) (r v : Int) :
    ((m.setRegisterN r v).1).instructionCount = m.instructionCount := by
  unfold Machine.setRegisterN
  split <;> rfl

theorem setRegisterN_fst_labels (m : Machine) (r v : Int) :
    ((m.setRegisterN r v).1).labels = m.labels := by
  unfold Machine.setRegisterN
  split <;> rfl

/-- Every branch of a `tryE` whose continuation preserves `pc` and the
instruction count preserves them. -/
theorem tryE_pres {α : Type} (m : Machine) (r : Except String α)
    (k : α → Machine × Option String)
    (hok : ∀ v, (k v).1.pc = m.pc ∧ (k v).1.instructionCount = m.instructionCount) :
    (tryE m r k).1.pc = m.pc ∧ (tryE m r k).1.instructionCount = m.instructionCount := by
  unfold tryE
  cases r with
  | ok v => exact hok v
  | error e => exact ⟨rfl, rfl⟩

theorem execBinToR0_preserves (m : Machine) (ops : List Opnd) (msg : String)
    (f : Opnd → Opnd → Int → Int → Except String Int) :
    (execBinToR0 m ops msg f).1.pc = m.pc ∧
    (execBinToR0 m ops msg f).1.instructionCount = m.instructionCount := by
  unfold execBinToR0
  split
  · apply tryE_pres
    intro a
    apply tryE_pres
    intro b
    apply tryE_pres
    intro result
    exact ⟨setRegisterN_fst_pc _ _ _, setRegisterN_fst_count _ _ _⟩
  · exact ⟨rfl, rfl⟩

theorem execLOAD_preserves (m : Machine) (ops : List Opnd) :
    (execLOAD m ops).1.pc = m.pc ∧
    (execLOAD m ops).1.instructionCount = m.instructionCount := by
  unfold execLOAD
  split
  · apply tryE_pres
    intro value
    apply tryE_pres
    intro ramAddr
    exact ⟨rfl, rfl⟩
  · exact ⟨rfl, rfl⟩

theorem execREAD_preserves (m : Machine) (ops : List Opnd) :
    (execREAD m ops).1.pc = m.pc ∧
    (execREAD m ops).1.instructionCount = m.instructionCount := by
  unfold execREAD
  split
  · split
    · exact ⟨rfl, rfl⟩
    · apply tryE_pres
      intro ramAddr
      split
      · split
        · rcases hr : m.mem.read ramAddr with ⟨⟨mem2, err⟩, value⟩
          dsimp only
          cases err with
          | some e => exact ⟨rfl, rfl⟩
          | none =>
            constructor
            · rw [setRegisterN_fst_pc]
            · rw [setRegisterN_fst_count]
        · exact ⟨rfl, rfl⟩
      · exact ⟨rfl, rfl⟩
  · exact ⟨rfl, rfl⟩

theorem execMVR_preserves (m : Machine) (ops : List Opnd) :
    (execMVR m ops).1.pc = m.pc ∧
    (execMVR m ops).1.instructionCount = m.instructionCount := by
  unfold execMVR
  split
  · split
    · exact ⟨rfl, rfl⟩
    · apply tryE_pres
      intro value
      split
      · exact ⟨setRegisterN_fst_pc _ _ _, setRegisterN_fst_count _ _ _⟩
      · unfold Machine.setRegisterGpu
        split <;> exact ⟨rfl, rfl⟩
      · exact ⟨rfl, rfl⟩
  · exact ⟨rfl, rfl⟩

theorem execMVM_preserves (m : Machine) (ops : List Opnd) :
    (execMVM m ops).1.pc = m.pc ∧
    (execMVM m ops).1.instructionCount = m.instructionCount := by
  unfold execMVM
  split
  · apply tryE_pres
    intro srcAddr
    apply tryE_pres
    intro dstAddr
    rcases hr : m.mem.read srcAddr with ⟨⟨mem2, err⟩, value⟩
    dsimp only
    cases err with
    | some e => exact ⟨rfl, rfl⟩
    | none => exact ⟨rfl, rfl⟩
  · exact ⟨rfl, rfl⟩

theorem execMULT_preserves (m : Machine) (ops : List Opnd) :
    (execMULT m ops).1.pc = m.pc ∧
    (execMULT m ops).1.instructionCount = m.instructionCount := by
  unfold execMULT
  split
  · apply tryE_pres
    intro a
    apply tryE_pres
    intro b
    dsimp only
    rcases hsr : m.setRegisterN 0 ((mask16 (a * b) : Nat) : Int) with ⟨m2, err⟩
    have hp : m2.pc = m.pc := by
      have := setRegisterN_fst_pc m 0 ((mask16 (a * b) : Nat) : Int)
      rw [hsr] at this; exact this
    have hc : m2.instructionCount = m.instructionCount := by
      have := setRegisterN_fst_count m 0 ((mask16 (a * b) : Nat) : Int)
      rw [hsr] at this; exact this
    cases err with
    | some e => exact ⟨hp, hc⟩
    | none =>
      constructor
      · rw [setRegisterN_fst_pc, hp]
      · rw [setRegisterN_fst_count, hc]
  · exact ⟨rfl, rfl⟩

theorem execDIV_preserves (m : Machine) (ops : List Opnd) :
    (execDIV m ops).1.pc = m.pc ∧
    (execDIV m ops).1.instructionCount = m.instructionCount := by
  unfold execDIV
  split
  · apply tryE_pres
    intro a
    apply tryE_pres
    intro b
    split
    · exact ⟨rfl, rfl⟩
    · dsimp only
      rcases hsr : m.setRegisterN 0 (Int.fdiv a b) with ⟨m2, err⟩
      have hp : m2.pc = m.pc := by
        have := setRegisterN_fst_pc m 0 (Int.fdiv a b)
        rw [hsr] at this; exact this
      have hc : m2.instructionCount = m.instructionCount := by
        have := setRegisterN_fst_count m 0 (Int.fdiv a b)
        rw [hsr] at this; exact this
      cases err with
      | some e => exact ⟨hp, hc⟩
      | none =>
        constructor
        · rw [setRegisterN_fst_pc, hp]
        · rw [setRegisterN_fst_count, hc]
  · exact ⟨rfl, rfl⟩

theorem execSHIFT_preserves (m : Machine) (ops : List Opnd) (msg : String)
    (left : Bool) :
    (execSHIFT m ops msg left).1.pc = m.pc ∧
    (execSHIFT m ops msg left).1.instructionCount = m.instructionCount := by
  unfold execSHIFT
  split
  · apply tryE_pres
    intro a
    apply tryE_pres
    intro b
    split
    · exact ⟨rfl, rfl⟩
    · exact ⟨setRegisterN_fst_pc _ _ _, setRegisterN_fst_count _ _ _⟩
  · exact ⟨rfl, rfl⟩

theorem execSHLR_preserves (m : Machine) (ops : List Opnd) :
    (execSHLR m ops).1.pc = m.pc ∧
    (execSHLR m ops).1.instructionCount = m.instructionCount := by
  unfold execSHLR
  split
  · apply tryE_pres
    intro a0
    apply tryE_pres
    intro b0
    exact ⟨setRegisterN_fst_pc _ _ _, setRegisterN_fst_count _ _ _⟩
  · exact ⟨rfl, rfl⟩

theorem execBITWISE_preserves (m : Machine) (ops : List Opnd) (msg : String)
    (f : Int → Int → Int) :
    (execBITWISE m ops msg f).1.pc = m.pc ∧
    (execBITWISE m ops msg f).1.instructionCount = m.instructionCount := by
  unfold execBITWISE
  split
  · apply tryE_pres
    intro a
    apply tryE_pres
    intro b
    exact ⟨setRegisterN_fst_pc _ _ _, setRegisterN_fst_count _ _ _⟩
  · exact ⟨rfl, rfl⟩

theorem execNOT_preserves (m : Machine) (ops : List Opnd) :
    (execNOT m ops).1.pc = m.pc ∧
    (execNOT m ops).1.instructionCount = m.instructionCount := by
  unfold execNOT
  split
  · split
    · exact ⟨rfl, rfl⟩
    · split
      · apply tryE_pres
        intro a
        exact ⟨setRegisterN_fst_pc _ _ _, setRegisterN_fst_count _ _ _⟩
      · exact ⟨rfl, rfl⟩
  · exact ⟨rfl, rfl⟩

theorem execKEYIN_preserves (m : Machine) (ops : List Opnd) :
    (execKEYIN m ops).1.pc = m.pc ∧
    (execKEYIN m ops).1.instructionCount = m.instructionCount := by
  unfold execKEYIN
  split
  · split
    · exact ⟨rfl, rfl⟩
    · exact ⟨rfl, rfl⟩
    · dsimp only
      have hrp : m.readInputChar.2.pc = m.pc := by
        unfold Machine.readInputChar
        split <;> rfl
      have hrc : m.readInputChar.2.instructionCount = m.instructionCount := by
        unfold Machine.readInputChar
        split <;> rfl
      split
      · exact ⟨hrp, hrc⟩
      · exact ⟨rfl, rfl⟩
  · exact ⟨rfl, rfl⟩

theorem execHALT_preserves (m : Machine) (ops : List Opnd) :
    (execHALT m ops).1.pc = m.pc ∧
    (execHALT m ops).1.instructionCount = m.instructionCount :=
  ⟨rfl, rfl⟩

theorem execGPU_preserves (m : Machine) (opc : String) (ops : List Opnd) :
    (execGPU m opc ops).1.pc = m.pc ∧
    (execGPU m opc ops).1.instructionCount = m.instructionCount := by
  unfold execGPU
  apply tryE_pres
  intro vals
  split
  · exact ⟨rfl, rfl⟩
  · rcases hg : GPUState.executeCommand _ opc vals with ⟨g2, err⟩
    exact ⟨rfl, rfl⟩

theorem resolveLabel_congr (m m' : Machine) (h : m.labels = m'.labels)
    (s : String) : m.resolveLabel s = m'.resolveLabel s := by
  unfold Machine.resolveLabel
  rw [h]

theorem resolveOperand_congr (m m' : Machine) (h : m.labels = m'.labels)
    (o : Opnd) : m.resolveOperand o = m'.resolveOperand o := by
  unfold Machine.resolveOperand
  cases o <;> simp [resolveLabel_congr m m' h]

theorem jumpResolve_congr (m m' : Machine) (h : m.labels = m'.labels)
    (o : Opnd) : m.jumpResolve o = m'.jumpResolve o := by
  unfold Machine.jumpResolve
  rw [resolveOperand_congr m m' h]

theorem execJMP_success (m m2 : Machine) (ops : List Opnd)
    (h : execJMP m ops = (m2, none)) :
    ∃ o rest, ops = o :: rest ∧ (m.jmpTargetResolve o).toOption = some m2.pc ∧
      m2.instructionCount = m.instructionCount := by
  unfold execJMP at h
  split at h
  · rename_i o1
    cases hT : m.jmpTargetResolve o1 with
    | error e => rw [hT] at h; simp [tryE] at h
    | ok target =>
      rw [hT] at h
      simp only [tryE] at h
      injection h with h1 h2
      subst h1
      exact ⟨o1, [], rfl, by rw [hT]; rfl, rfl⟩
  · simp at h

theorem execJAL_success (m m2 : Machine) (ops : List Opnd)
    (h : execJAL m ops = (m2, none)) :
    ∃ o rest, ops = o :: rest ∧ (m.jumpResolve o).toOption = some m2.pc ∧
      m2.instructionCount = m.instructionCount := by
  unfold execJAL at h
  split at h
  · rename_i o1
    rcases hsr : m.setRegisterN 1 (m.pc + 1) with ⟨m1, err⟩
    have hlab : m1.labels = m.labels := by
      have := setRegisterN_fst_labels m 1 (m.pc + 1)
      rw [hsr] at this; exact this
    have hcnt : m1.instructionCount = m.instructionCount := by
      have := setRegisterN_fst_count m 1 (m.pc + 1)
      rw [hsr] at this; exact this
    cases err with
    | some e => rw [hsr] at h; dsimp only at h; simp at h
    | none =>
      rw [hsr] at h
      dsimp only at h
      cases hT : m1.jumpResolve o1 with
      | error e => rw [hT] at h; simp [tryE] at h
      | ok target =>
        rw [hT] at h
        simp only [tryE] at h
        injection h with h1 h2
        subst h1
        refine ⟨o1, [], rfl, ?_, hcnt⟩
        rw [jumpResolve_congr m m1 hlab.symm o1, hT]
        rfl
  · simp at h

theorem execJZ_success (m m2 : Machine) (ops : List Opnd)
    (h : execJZ m ops = (m2, none)) :
    (∃ o rest, ops = o :: rest ∧
      (m2.pc = m.pc + 1 ∨ (m.jumpResolve o).toOption = some m2.pc)) ∧
    m2.instructionCount = m.instructionCount := by
  unfold execJZ at h
  split at h
  · rename_i o1 o2
    cases hT : m.jumpResolve o1 with
    | error e => rw [hT] at h; simp [tryE] at h
    | ok target =>
      rw [hT] at h
      simp only [tryE] at h
      cases hX : m.getOperandValue o2 with
      | error e => rw [hX] at h; simp at h
      | ok x =>
        rw [hX] at h
        dsimp only at h
        by_cases hz : x = 0
        · rw [if_pos hz] at h
          injection h with h1 h2
          subst h1
          exact ⟨⟨o1, [o2], rfl, Or.inr (by rw [hT]; rfl)⟩, rfl⟩
        · rw [if_neg hz] at h
          injection h with h1 h2
          subst h1
          exact ⟨⟨o1, [o2], rfl, Or.inl rfl⟩, rfl⟩
  · simp at h

theorem execJNZ_success (m m2 : Machine) (ops : List Opnd)
    (h : execJNZ m ops = (m2, none)) :
    (∃ o rest, ops = o :: rest ∧
      (m2.pc = m.pc + 1 ∨ (m.jumpResolve o).toOption = some m2.pc)) ∧
    m2.instructionCount = m.instructionCount := by
  unfold execJNZ at h
  split at h
  · rename_i o1 o2
    cases hT : m.jumpResolve o1 with
    | error e => rw [hT] at h; simp [tryE] at h
    | ok target =>
      rw [hT] at h
      simp only [tryE] at h
      cases hX : m.getOperandValue o2 with
      | error e => rw [hX] at h; simp at h
      | ok x =>
        rw [hX] at h
        dsimp only at h
        by_cases hz : x ≠ 0
        · rw [if_pos hz] at h
          injection h with h1 h2
          subst h1
          exact ⟨⟨o1, [o2], rfl, Or.inr (by rw [hT]; rfl)⟩, rfl⟩
        · rw [if_neg hz] at h
          injection h with h1 h2
          subst h1
          exact ⟨⟨o1, [o2], rfl, Or.inl rfl⟩, rfl⟩
  · simp at h

theorem execJBT_success (m m2 : Machine) (ops : List Opnd)
    (h : execJBT m ops = (m2, none)) :
    (∃ o rest, ops = o :: rest ∧
      (m2.pc = m.pc + 1 ∨ (m.jumpResolve o).toOption = some m2.pc)) ∧
    m2.instructionCount = m.instructionCount := by
  unfold execJBT at h
  split at h
  · rename_i o1 o2 o3
    cases hT : m.jumpResolve o1 with
    | error e => rw [hT] at h; simp [tryE] at h
    | ok target =>
      rw [hT] at h
      simp only [tryE] at h
      cases hX : m.getOperandValue o2 with
      | error e => rw [hX] at h; simp at h
      | ok x =>
        rw [hX] at h
        dsimp only at h
        cases hY : m.getOperandValue o3 with
        | error e => rw [hY] at h; simp at h
        | ok y =>
          rw [hY] at h
          dsimp only at h
          by_cases hz : y < x
          · rw [if_pos hz] at h
            injection h with h1 h2
            subst h1
            exact ⟨⟨o1, [o2, o3], rfl, Or.inr (by rw [hT]; rfl)⟩, rfl⟩
          · rw [if_neg hz] at h
            injection h with h1 h2
            subst h1
            exact ⟨⟨o1, [o2, o3], rfl, Or.inl rfl⟩, rfl⟩
  · simp at h

set_option maxHeartbeats 2000000 in
/-- Which opcode string decodes to each jump handler. -/
theorem decodeOp_jump_name (u : String) (k : OpKind) (hk : decodeOp u = some k) :
    (k = .JMP → u = "JMP") ∧ (k = .JAL → u = "JAL") ∧ (k = .JBT → u = "JBT") ∧
    (k = .JZ → u = "JZ") ∧ (k = .JNZ → u = "JNZ") := by
  unfold decodeOp at hk
  by_cases q : u = "LOAD"
  · rw [if_pos q] at hk
    injection hk with hk2
    subst hk2
    exact ⟨fun hcon => absurd hcon (by decide), fun hcon => absurd hcon (by decide), fun hcon => absurd hcon (by decide), fun hcon => absurd hcon (by decide), fun hcon => absurd hcon (by decide)⟩
  · rw [if_neg q] at hk
    clear q
    by_cases q : u = "READ"
    · rw [if_pos q] at hk
      injection hk with hk2
      subst hk2
      exact ⟨fun hcon => absurd hcon (by decide), fun hcon => absurd hcon (by decide), fun hcon => absurd hcon (by decide), fun hcon => absurd hcon (by decide), fun hcon => absurd hcon (by decide)⟩
    · rw [if_neg q] at hk
      clear q
      by_cases q : u = "MVR"
      · rw [if_pos q] at hk
        injection hk with hk2
        subst hk2
        exact ⟨fun hcon => absurd hcon (by decide), fun hcon => absurd hcon (by decide), fun hcon => absurd hcon (by decide), fun hcon => absurd hcon (by decide), fun hcon => absurd hcon (by decide)⟩
      · rw [if_neg q] at hk
        clear q
        by_cases q : u = "MVM"
        · rw [if_pos q] at hk
          injection hk with hk2
          subst hk2
          exact ⟨fun hcon => absurd hcon (by decide), fun hcon => absurd hcon (by decide), fun hcon => absurd hcon (by decide), fun hcon => absurd hcon (by decide), fun hcon => absurd hcon (by decide)⟩
        · rw [if_neg q] at hk
          clear q
          by_cases q : u = "ADD"
          · rw [if_pos q] at hk
            injection hk with hk2
            subst hk2
            exact ⟨fun hcon => absurd hcon (by decide), fun hcon => absurd hcon (by decide), fun hcon => absurd hcon (by decide), fun hcon => absurd hcon (by decide), fun hcon => absurd hcon (by decide)⟩
          · rw [if_neg q] at hk
            clear q
            by_cases q : u = "SUB"
            · rw [if_pos q] at hk
              injection hk with hk2
              subst hk2
              exact ⟨fun hcon => absurd hcon (by decide), fun hcon => absurd hcon (by decide), fun hcon => absurd hcon (by decide), fun hcon => absurd hcon (by decide), fun hcon => absurd hcon (by decide)⟩
            · rw [if_neg q] at hk
              clear q
              by_cases q : u = "MULT"
              · rw [if_pos q] at hk
                injection hk with hk2
                subst hk2
                exact ⟨fun hcon => absurd hcon (by decide), fun hcon => absurd hcon (by decide), fun hcon => absurd hcon (by decide), fun hcon => absurd hcon (by decide), fun hcon => absurd hcon (by decide)⟩
              · rw [if_neg q] at hk
                clear q
                by_cases q : u = "DIV"
                · rw [if_pos q] at hk
                  injection hk with hk2
                  subst hk2
                  exact ⟨fun hcon => absurd hcon (by decide), fun hcon => absurd hcon (by decide), fun hcon => absurd hcon (by decide), fun hcon => absurd hcon (by decide), fun hcon => absurd hcon (by decide)⟩
                · rw [if_neg q] at hk
                  clear q
                  by_cases q : u = "SHL"
                  · rw [if_pos q] at hk
                    injection hk with hk2
                    subst hk2
                    exact ⟨fun hcon => absurd hcon (by decide), fun hcon => absurd hcon (by decide), fun hcon => absurd hcon (by decide), fun hcon => absurd hcon (by decide), fun hcon => absurd hcon (by decide)⟩
                  · rw [if_neg q] at hk
                    clear q
                    by_cases q : u = "SHR"
                    · rw [if_pos q] at hk
                      injection hk with hk2
                      subst hk2
                      exact ⟨fun hcon => absurd hcon (by decide), fun hcon => absurd hcon (by decide), fun hcon => absurd hcon (by decide), fun hcon => absurd hcon (by decide), fun hcon => absurd hcon (by decide)⟩
                    · rw [if_neg q] at hk
                      clear q
                      by_cases q : u = "SHLR"
                      · rw [if_pos q] at hk
                        injection hk with hk2
                        subst hk2
                        exact ⟨fun hcon => absurd hcon (by decide), fun hcon => absurd hcon (by decide), fun hcon => absurd hcon (by decide), fun hcon => absurd hcon (by decide), fun hcon => absurd hcon (by decide)⟩
                      · rw [if_neg q] at hk
                        clear q
                        by_cases q : u = "AND"
                        · rw [if_pos q] at hk
                          injection hk with hk2
                          subst hk2
                          exact ⟨fun hcon => absurd hcon (by decide), fun hcon => absurd hcon (by decide), fun hcon => absurd hcon (by decide), fun hcon => absurd hcon (by decide), fun hcon => absurd hcon (by decide)⟩
                        · rw [if_neg q] at hk
                          clear q
                          by_cases q : u = "OR"
                          · rw [if_pos q] at hk
                            injection hk with hk2
                            subst hk2
                            exact ⟨fun hcon => absurd hcon (by decide), fun hcon => absurd hcon (by decide), fun hcon => absurd hcon (by decide), fun hcon => absurd hcon (by decide), fun hcon => absurd hcon (by decide)⟩
                          · rw [if_neg q] at hk
                            clear q
                            by_cases q : u = "XOR"
                            · rw [if_pos q] at hk
                              injection hk with hk2
                              subst hk2
                              exact ⟨fun hcon => absurd hcon (by decide), fun hcon => absurd hcon (by decide), fun hcon => absurd hcon (by decide), fun hcon => absurd hcon (by decide), fun hcon => absurd hcon (by decide)⟩
                            · rw [if_neg q] at hk
                              clear q
                              by_cases q : u = "NOT"
                              · rw [if_pos q] at hk
                                injection hk with hk2
                                subst hk2
                                exact ⟨fun hcon => absurd hcon (by decide), fun hcon => absurd hcon (by decide), fun hcon => absurd hcon (by decide), fun hcon => absurd hcon (by decide), fun hcon => absurd hcon (by decide)⟩
                              · rw [if_neg q] at hk
                                clear q
                                by_cases q : u = "JMP"
                                · rw [if_pos q] at hk
                                  injection hk with hk2
                                  subst hk2
                                  exact ⟨fun _ => q, fun hcon => absurd hcon (by decide), fun hcon => absurd hcon (by decide), fun hcon => absurd hcon (by decide), fun hcon => absurd hcon (by decide)⟩
                                · rw [if_neg q] at hk
                                  clear q
                                  by_cases q : u = "JAL"
                                  · rw [if_pos q] at hk
                                    injection hk with hk2
                                    subst hk2
                                    exact ⟨fun hcon => absurd hcon (by decide), fun _ => q, fun hcon => absurd hcon (by decide), fun hcon => absurd hcon (by decide), fun hcon => absurd hcon (by decide)⟩
                                  · rw [if_neg q] at hk
                                    clear q
                                    by_cases q : u = "JBT"
                                    · rw [if_pos q] at hk
                                      injection hk with hk2
                                      subst hk2
                                      exact ⟨fun hcon => absurd hcon (by decide), fun hcon => absurd hcon (by decide), fun _ => q, fun hcon => absurd hcon (by decide), fun hcon => absurd hcon (by decide)⟩
                                    · rw [if_neg q] at hk
                                      clear q
                                      by_cases q : u = "JZ"
                                      · rw [if_pos q] at hk
                                        injection hk with hk2
                                        subst hk2
                                        exact ⟨fun hcon => absurd hcon (by decide), fun hcon => absurd hcon (by decide), fun hcon => absurd hcon (by decide), fun _ => q, fun hcon => absurd hcon (by decide)⟩
                                      · rw [if_neg q] at hk
                                        clear q
                                        by_cases q : u = "JNZ"
                                        · rw [if_pos q] at hk
                                          injection hk with hk2
                                          subst hk2
                                          exact ⟨fun hcon => absurd hcon (by decide), fun hcon => absurd hcon (by decide), fun hcon => absurd hcon (by decide), fun hcon => absurd hcon (by decide), fun _ => q⟩
                                        · rw [if_neg q] at hk
                                          clear q
                                          by_cases q : u = "KEYIN"
                                          · rw [if_pos q] at hk
                                            injection hk with hk2
                                            subst hk2
                                            exact ⟨fun hcon => absurd hcon (by decide), fun hcon => absurd hcon (by decide), fun hcon => absurd hcon (by decide), fun hcon => absurd hcon (by decide), fun hcon => absurd hcon (by decide)⟩
                                          · rw [if_neg q] at hk
                                            clear q
                                            by_cases q : u = "HALT"
                                            · rw [if_pos q] at hk
                                              injection hk with hk2
                                              subst hk2
                                              exact ⟨fun hcon => absurd hcon (by decide), fun hcon => absurd hcon (by decide), fun hcon => absurd hcon (by decide), fun hcon => absurd hcon (by decide), fun hcon => absurd hcon (by decide)⟩
                                            · rw [if_neg q] at hk
                                              clear q
                                              by_cases q : u ∈ ["DRLINE", "DRGRD", "CLRGRID", "LDSPR", "DRSPR", "LDTXT", "DRTXT", "SCRLBFR"]
                                              · rw [if_pos q] at hk
                                                injection hk with hk2
                                                subst hk2
                                                exact ⟨fun hcon => absurd hcon (by decide), fun hcon => absurd hcon (by decide), fun hcon => absurd hcon (by decide), fun hcon => absurd hcon (by decide), fun hcon => absurd hcon (by decide)⟩
                                              · rw [if_neg q] at hk
                                                simp at hk

theorem dispatch_nonjump_preserves (m : Machine) (i : Instr) (u : String)
    (m2 : Machine) (err : Option String) (hj : ¬ u ∈ jumpOpcodes)
    (hd : dispatchOpcode m i u = some (m2, err)) :
    m2.pc = m.pc ∧ m2.instructionCount = m.instructionCount := by
  unfold dispatchOpcode at hd
  rcases hk : decodeOp u with _ | k
  · rw [hk] at hd; simp at hd
  · rw [hk] at hd
    injection hd with hd2
    cases k with
    | LOAD =>
      have := execLOAD_preserves m i.operands
      have hd3 : execLOAD m i.operands = (m2, err) := hd2
      rw [hd3] at this; exact this
    | READ =>
      have := execREAD_preserves m i.operands
      have hd3 : execREAD m i.operands = (m2, err) := hd2
      rw [hd3] at this; exact this
    | MVR =>
      have := execMVR_preserves m i.operands
      have hd3 : execMVR m i.operands = (m2, err) := hd2
      rw [hd3] at this; exact this
    | MVM =>
      have := execMVM_preserves m i.operands
      have hd3 : execMVM m i.operands = (m2, err) := hd2
      rw [hd3] at this; exact this
    | ADD =>
      have := execBinToR0_preserves m i.operands "ADD requires 2 operands"
        (fun _ _ a b => Except.ok (a + b))
      have hd3 : execBinToR0 m i.operands "ADD requires 2 operands"
          (fun _ _ a b => Except.ok (a + b)) = (m2, err) := hd2
      rw [hd3] at this; exact this
    | SUB =>
      have := execBinToR0_preserves m i.operands "SUB requires 2 operands"
        (fun _ _ a b => Except.ok (a - b))
      have hd3 : execBinToR0 m i.operands "SUB requires 2 operands"
          (fun _ _ a b => Except.ok (a - b)) = (m2, err) := hd2
      rw [hd3] at this; exact this
    | MULT =>
      have := execMULT_preserves m i.operands
      have hd3 : execMULT m i.operands = (m2, err) := hd2
      rw [hd3] at this; exact this
    | DIV =>
      have := execDIV_preserves m i.operands
      have hd3 : execDIV m i.operands = (m2, err) := hd2
      rw [hd3] at this; exact this
    | SHL =>
      have := execSHIFT_preserves m i.operands "SHL requires 2 operands" true
      have hd3 : execSHIFT m i.operands "SHL requires 2 operands" true = (m2, err) := hd2
      rw [hd3] at this; exact this
    | SHR =>
      have := execSHIFT_preserves m i.operands "SHR requires 2 operands" false
      have hd3 : execSHIFT m i.operands "SHR requires 2 operands" false = (m2, err) := hd2
      rw [hd3] at this; exact this
    | SHLR =>
      have := execSHLR_preserves m i.operands
      have hd3 : execSHLR m i.operands = (m2, err) := hd2
      rw [hd3] at this; exact this
    | AND =>
      have := execBITWISE_preserves m i.operands "AND requires 2 operands" pyAnd
      have hd3 : execBITWISE m i.operands "AND requires 2 operands" pyAnd = (m2, err) := hd2
      rw [hd3] at this; exact this
    | OR =>
      have := execBITWISE_preserves m i.operands "OR requires 2 operands" pyOr
      have hd3 : execBITWISE m i.operands "OR requires 2 operands" pyOr = (m2, err) := hd2
      rw [hd3] at this; exact this
    | XOR =>
      have := execBITWISE_preserves m i.operands "XOR requires 2 operands" pyXor
      have hd3 : execBITWISE m i.operands "XOR requires 2 operands" pyXor = (m2, err) := hd2
      rw [hd3] at this; exact this
    | NOT =>
      have := execNOT_preserves m i.operands
      have hd3 : execNOT m i.operands = (m2, err) := hd2
      rw [hd3] at this; exact this
    | JMP =>
      have hu : u = "JMP" := (decodeOp_jump_name u _ hk).1 rfl
      exact absurd (by rw [hu]; decide) hj
    | JAL =>
      have hu : u = "JAL" := (decodeOp_jump_name u _ hk).2.1 rfl
      exact absurd (by rw [hu]; decide) hj
    | JBT =>
      have hu : u = "JBT" := (decodeOp_jump_name u _ hk).2.2.1 rfl
      exact absurd (by rw [hu]; decide) hj
    | JZ =>
      have hu : u = "JZ" := (decodeOp_jump_name u _ hk).2.2.2.1 rfl
      exact absurd (by rw [hu]; decide) hj
    | JNZ =>
      have hu : u = "JNZ" := (decodeOp_jump_name u _ hk).2.2.2.2 rfl
      exact absurd (by rw [hu]; decide) hj
    | KEYIN =>
      have := execKEYIN_preserves m i.operands
      have hd3 : execKEYIN m i.operands = (m2, err) := hd2
      rw [hd3] at this; exact this
    | HALT =>
      have := execHALT_preserves m i.operands
      have hd3 : execHALT m i.operands = (m2, err) := hd2
      rw [hd3] at this; exact this
    | GPUOP =>
      have := execGPU_preserves m i.opcode i.operands
      have hd3 : execGPU m i.opcode i.operands = (m2, err) := hd2
      rw [hd3] at this; exact this

/-- A successful `_execute_instruction` leaves the instruction counter alone
and either advanced `pc` by one or installed the instruction's resolved jump
target. -/
theorem executeInstruction_success (m m1 : Machine) (i : Instr)
    (h : m.executeInstruction i = (m1, none)) :
    m1.instructionCount = m.instructionCount ∧
    (m1.pc = m.pc + 1 ∨ m.jumpTargetOf i = some m1.pc) := by
  unfold Machine.executeInstruction at h
  rcases hd : dispatchOpcode m i (upStr i.opcode) with _ | ⟨m2, err⟩
  · rw [hd] at h; simp at h
  · rw [hd] at h
    cases err with
    | some e => simp at h
    | none =>
      dsimp only at h
      by_cases hj : upStr i.opcode ∈ jumpOpcodes
      · rw [if_pos hj] at h
        injection h with h1 h2
        subst h1
        simp only [jumpOpcodes, List.mem_cons, List.not_mem_nil, or_false] at hj
        rcases hj with ho | ho | ho | ho | ho
        · rw [ho] at hd
          have hx : some (execJMP m i.operands) = some (m2, none) := by
            rw [← hd]; rfl
          injection hx with hx2
          obtain ⟨o, rest, hops, htgt, hcnt⟩ := execJMP_success m m2 i.operands hx2
          refine ⟨hcnt, Or.inr ?_⟩
          unfold Machine.jumpTargetOf
          rw [ho, hops]
          exact htgt
        · rw [ho] at hd
          have hx : some (execJAL m i.operands) = some (m2, none) := by
            rw [← hd]; rfl
          injection hx with hx2
          obtain ⟨o, rest, hops, htgt, hcnt⟩ := execJAL_success m m2 i.operands hx2
          refine ⟨hcnt, Or.inr ?_⟩
          unfold Machine.jumpTargetOf
          rw [ho, hops]
          exact htgt
        · rw [ho] at hd
          have hx : some (execJBT m i.operands) = some (m2, none) := by
            rw [← hd]; rfl
          injection hx with hx2
          obtain ⟨⟨o, rest, hops, hpc⟩, hcnt⟩ := execJBT_success m m2 i.operands hx2
          refine ⟨hcnt, ?_⟩
          rcases hpc with hpc | hpc
          · exact Or.inl hpc
          · refine Or.inr ?_
            unfold Machine.jumpTargetOf
            rw [ho, hops]
            exact hpc
        · rw [ho] at hd
          have hx : some (execJZ m i.operands) = some (m2, none) := by
            rw [← hd]; rfl
          injection hx with hx2
          obtain ⟨⟨o, rest, hops, hpc⟩, hcnt⟩ := execJZ_success m m2 i.operands hx2
          refine ⟨hcnt, ?_⟩
          rcases hpc with hpc | hpc
          · exact Or.inl hpc
          · refine Or.inr ?_
            unfold Machine.jumpTargetOf
            rw [ho, hops]
            exact hpc
        · rw [ho] at hd
          have hx : some (execJNZ m i.operands) = some (m2, none) := by
            rw [← hd]; rfl
          injection hx with hx2
          obtain ⟨⟨o, rest, hops, hpc⟩, hcnt⟩ := execJNZ_success m m2 i.operands hx2
          refine ⟨hcnt, ?_⟩
          rcases hpc with hpc | hpc
          · exact Or.inl hpc
          · refine Or.inr ?_
            unfold Machine.jumpTargetOf
            rw [ho, hops]
            exact hpc
      · rw [if_neg hj] at h
        injection h with h1 h2
        subst h1
        have hpres := dispatch_nonjump_preserves m i _ m2 none hj hd
        constructor
        · show m2.instructionCount = m.instructionCount
          exact hpres.2
        · exact Or.inl (by show m2.pc + 1 = m.pc + 1; rw [hpres.1])

/-- C5: while `Running`, a successful `step` retires exactly one instruction
— the instruction counter rises by exactly one and `pc` is either advanced by
one or replaced by the executed instruction's resolved jump target; in any
state other than `Running`, `step` returns false and changes nothing at
all. -/
theorem step_retires_exactly_one (m : Machine) :
    (∀ i, m.mode = .running → m.fetch = some i → (m.step).2 = true →
      (m.step).1.instructionCount = m.instructionCount + 1 ∧
      ((m.step).1.pc = m.pc + 1 ∨ m.jumpTargetOf i = some ((m.step).1.pc))) ∧
    (¬ m.mode = .running → m.step = (m, false)) := by
  constructor
  · intro i hrun hfetch hok
    have hs : m.step =
        (match m.executeInstruction i with
         | (m1, none) =>
           ({ m1 with instructionCount := m1.instructionCount + 1
                    , cycleCount := m1.cycleCount + 1 }, true)
         | (m1, some e) =>
           ({ m1 with mode := .error, haltReason := some e }, false)) := by
      unfold Machine.step
      rw [if_neg (by simp [hrun]), hfetch]
    rcases he : m.executeInstruction i with ⟨m1, err⟩
    rw [he] at hs
    cases err with
    | some e => rw [hs] at hok; simp at hok
    | none =>
      obtain ⟨hcnt, hpc⟩ := executeInstruction_success m m1 i he
      rw [hs]
      constructor
      · show m1.instructionCount + 1 = m.instructionCount + 1
        rw [hcnt]
      · show m1.pc = m.pc + 1 ∨ m.jumpTargetOf i = some m1.pc
        exact hpc
  · intro hnr
    unfold Machine.step
    rw [if_pos hnr]

/-- Witness for C5: one `MVR i:7, 3` instruction retires and advances `pc`
by one; and a stopped machine does not step. -/
theorem step_retires_exactly_one_witness :
    (((mkMachine [⟨"MVR", [Opnd.imm 7, Opnd.num 3], 0⟩] []).step).1.instructionCount =
      (mkMachine [⟨"MVR", [Opnd.imm 7, Opnd.num 3], 0⟩] []).instructionCount + 1 ∧
     (((mkMachine [⟨"MVR", [Opnd.imm 7, Opnd.num 3], 0⟩] []).step).1.pc =
        (mkMachine [⟨"MVR", [Opnd.imm 7, Opnd.num 3], 0⟩] []).pc + 1 ∨
      (mkMachine [⟨"MVR", [Opnd.imm 7, Opnd.num 3], 0⟩] []).jumpTargetOf
          ⟨"MVR", [Opnd.imm 7, Opnd.num 3], 0⟩ =
        some (((mkMachine [⟨"MVR", [Opnd.imm 7, Opnd.num 3], 0⟩] []).step).1.pc))) ∧
    ({ mkMachine [⟨"MVR", [Opnd.imm 7, Opnd.num 3], 0⟩] [] with
        mode := CpuMode.stopped }.step =
      ({ mkMachine [⟨"MVR", [Opnd.imm 7, Opnd.num 3], 0⟩] [] with
          mode := CpuMode.stopped }, false)) :=
  ⟨(step_retires_exactly_one (mkMachine [⟨"MVR", [Opnd.imm 7, Opnd.num 3], 0⟩] [])).1
      ⟨"MVR", [Opnd.imm 7, Opnd.num 3], 0⟩ rfl (by decide) (by decide),
   (step_retires_exactly_one _).2 (by decide)⟩

/-! ### C8 helpers -/

/-- Bit `i` of `natLdiff a b` is `a`'s bit with `b`'s bit cleared. -/
theorem natLdiff_testBit (a b i : Nat) :
    (natLdiff a b).testBit i = (a.testBit i && !(b.testBit i)) :=
  Nat.testBit_bitwise rfl a b i

/-- Clearing bits from `0` still gives `0`. -/
theorem natLdiff_zero_left (m : Nat) : natLdiff 0 m = 0 :=
  Nat.eq_of_testBit_eq fun i => by rw [natLdiff_testBit]; simp

/-- `rowAndNot` at the touched row. -/
theorem rowAndNot_getD_self (b : List Nat) (i mask : Nat) :
    (rowAndNot b i mask).getD i 0 = natLdiff (b.getD i 0) mask := by
  unfold rowAndNot
  rcases Nat.lt_or_ge i b.length with h | h
  · rw [List.getD_eq_getElem?_getD, List.getElem?_set_self h]
    rfl
  · rw [List.set_eq_of_length_le h, List.getD_eq_default _ _ h, natLdiff_zero_left]

/-- `rowAndNot` leaves other rows alone. -/
theorem rowAndNot_getD_ne (b : List Nat) (r py mask : Nat) (h : r ≠ py) :
    (rowAndNot b r mask).getD py 0 = b.getD py 0 := by
  unfold rowAndNot
  rw [List.getD_eq_getElem?_getD, List.getElem?_set_ne h]
  exact (List.getD_eq_getElem?_getD b py 0).symm

/-- Folding `rowAndNot` over rows not containing `py` leaves row `py` alone. -/
theorem foldl_rowAndNot_getD_not_mem (mask : Nat) :
    ∀ (rows : List Nat) (buf : List Nat) (py : Nat), py ∉ rows →
      (rows.foldl (fun bf r => rowAndNot bf r mask) buf).getD py 0 = buf.getD py 0 := by
  intro rows
  induction rows with
  | nil => intro buf py _; rfl
  | cons r rest ih =>
    intro buf py hnm
    rw [List.foldl_cons, ih _ py (fun hh => hnm (List.mem_cons_of_mem r hh))]
    exact rowAndNot_getD_ne buf r py mask (fun hh => hnm (hh ▸ List.mem_cons_self r rest))

/-- Folding `rowAndNot` over a duplicate-free row list clears the mask on every
member row. -/
theorem foldl_rowAndNot_getD_mem (mask : Nat) :
    ∀ (rows : List Nat) (buf : List Nat) (py : Nat), py ∈ rows → rows.Nodup →
      (rows.foldl (fun bf r => rowAndNot bf r mask) buf).getD py 0 =
        natLdiff (buf.getD py 0) mask := by
  intro rows
  induction rows with
  | nil => intro _ _ h _; cases h
  | cons r rest ih =>
    intro buf py hmem hnd
    rw [List.foldl_cons]
    rcases List.mem_cons.mp hmem with heq | hmem2
    · subst heq
      rw [foldl_rowAndNot_getD_not_mem mask rest _ py (List.nodup_cons.mp hnd).1]
      exact rowAndNot_getD_self buf py mask
    · have hne : r ≠ py := fun hh => (List.nodup_cons.mp hnd).1 (hh ▸ hmem2)
      rw [ih _ py hmem2 (List.nodup_cons.mp hnd).2, rowAndNot_getD_ne buf r py mask hne]

/-- Inside the clamped rectangle the row mask has the pixel's bit set. -/
theorem gridMask_testBit (x w px : Nat) (h1 : x ≤ px) (h2 : px < x + w)
    (h3 : x + w ≤ 32) : (gridMask x w).testBit (31 - px) = true := by
  have hm : (0xFFFFFFFF : Nat) = 2 ^ 32 - 1 := by norm_num
  unfold gridMask
  rw [hm, Nat.testBit_shiftLeft, Nat.testBit_shiftRight, Nat.testBit_two_pow_sub_one]
  simp only [Bool.and_eq_true, decide_eq_true_eq, ge_iff_le]
  omega

/-- The clamped rectangle fits on the 32×32 screen. -/
theorem clampRect_le (a b c d : Int) :
    (clampRect a b c d).1 + (clampRect a b c d).2.2.1 ≤ 32 ∧
      (clampRect a b c d).2.1 + (clampRect a b c d).2.2.2 ≤ 32 := by
  unfold clampRect
  dsimp only
  omega

/-- Reading the edit buffer back after writing through it returns the written
rows (the register is untouched in between). -/
theorem getEditBuffer_setEditBuffer (g : GPUState) (bf : List Nat) :
    ((GPUState.setEditBuffer (g.getEditBuffer).1 bf).getEditBuffer).2 = bf := by
  unfold GPUState.getEditBuffer GPUState.sync GPUState.setEditBuffer
  dsimp only
  by_cases h : (g.gpuRegister &&& 2) >>> 1 = 0
  · rw [if_pos h]
    dsimp only
    rw [if_pos h]
  · rw [if_neg h]
    dsimp only
    rw [if_neg h]

/-- `_clear_grid`, unfolded to its write-back form. -/
theorem clearGrid_eq (g : GPUState) (a b c d : Int) :
    g.clearGrid [a, b, c, d] = GPUState.setEditBuffer (g.getEditBuffer).1
      (if 0 < (clampRect a b c d).2.2.1 then
        (List.range' (clampRect a b c d).2.1
            (min 32 ((clampRect a b c d).2.1 + (clampRect a b c d).2.2.2) -
              (clampRect a b c d).2.1)).foldl
          (fun bf r =>
            rowAndNot bf r (gridMask (clampRect a b c d).1 (clampRect a b c d).2.2.1))
          (g.getEditBuffer).2
       else (g.getEditBuffer).2) := rfl

/-- `_clear_grid` zeroes every pixel bit inside its clamped rectangle. -/
theorem clearGrid_clears_rect (g : GPUState) (a b c d : Int) (px py : Nat)
    (hx1 : (clampRect a b c d).1 ≤ px)
    (hx2 : px < (clampRect a b c d).1 + (clampRect a b c d).2.2.1)
    (hy1 : (clampRect a b c d).2.1 ≤ py)
    (hy2 : py < (clampRect a b c d).2.1 + (clampRect a b c d).2.2.2) :
    (((g.clearGrid [a, b, c, d]).getEditBuffer).2.getD py 0).testBit (31 - px) = false := by
  rw [clearGrid_eq, getEditBuffer_setEditBuffer, if_pos (by omega)]
  rw [foldl_rowAndNot_getD_mem _ _ _ py
      (List.mem_range'_1.mpr ⟨hy1, by have := (clampRect_le a b c d).2; omega⟩)
      (List.nodup_range' _ _)]
  rw [natLdiff_testBit,
      gridMask_testBit _ _ _ hx1 hx2 (clampRect_le a b c d).1]
  simp

/-- `execute_command "DRGRD"` is `_fill_grid` after the counter bump. -/
theorem executeCommand_DRGRD (g : GPUState) (ops : List Int) :
    g.executeCommand "DRGRD" ops =
      (GPUState.fillGrid { g with commandCount := g.commandCount + 1 } ops, none) := by
  unfold GPUState.executeCommand
  rw [if_neg (by decide), if_pos rfl]

/-- `execute_command "CLRGRID"` is `_clear_grid` after the counter bump. -/
theorem executeCommand_CLRGRID (g : GPUState) (ops : List Int) :
    g.executeCommand "CLRGRID" ops =
      (GPUState.clearGrid { g with commandCount := g.commandCount + 1 } ops, none) := by
  unfold GPUState.executeCommand
  rw [if_neg (by decide), if_neg (by decide), if_pos rfl]

/-- C8: for every starting GPU state (hence every initial edit-buffer contents)
and all arguments `x, y, w, h`, executing `DRGRD x,y,w,h` followed by
`CLRGRID x,y,w,h` leaves every pixel bit inside the clamped rectangle of the
edit buffer equal to zero: each row `py` of the rectangle has bit `31 - px`
clear for every column `px` of the rectangle. -/
theorem drgrd_then_clrgrid_clears_rect (g : GPUState) (x y w h : Int) (px py : Nat)
    (hx1 : (clampRect x y w h).1 ≤ px)
    (hx2 : px < (clampRect x y w h).1 + (clampRect x y w h).2.2.1)
    (hy1 : (clampRect x y w h).2.1 ≤ py)
    (hy2 : py < (clampRect x y w h).2.1 + (clampRect x y w h).2.2.2) :
    (((((g.executeCommand "DRGRD" [x, y, w, h]).1.executeCommand "CLRGRID"
          [x, y, w, h]).1).getEditBuffer).2.getD py 0).testBit (31 - px) = false := by
  rw [executeCommand_DRGRD, executeCommand_CLRGRID]
  exact clearGrid_clears_rect _ x y w h px py hx1 hx2 hy1 hy2

/-- Concrete run of `drgrd_then_clrgrid_clears_rect`: on a fresh GPU, drawing
and then clearing the rectangle at (0,0) of size 4×4 leaves pixel (2,2) clear. -/
theorem drgrd_then_clrgrid_clears_rect_witness :
    (((((mkGPU.executeCommand "DRGRD" [0, 0, 4, 4]).1.executeCommand "CLRGRID"
          [0, 0, 4, 4]).1).getEditBuffer).2.getD 2 0).testBit (31 - 2) = false :=
  drgrd_then_clrgrid_clears_rect mkGPU 0 0 4 4 2 2 (by decide) (by decide)
    (by decide) (by decide)

/-! ### C9 helpers -/

/-- Extracting bit 1 by masking-then-shifting or shifting-then-masking. -/
theorem and_two_shiftRight_one (x : Nat) : (x &&& 2) >>> 1 = (x >>> 1) &&& 1 := by
  apply Nat.eq_of_testBit_eq
  intro i
  have h2 : (2 : Nat) = 2 ^ 1 := rfl
  have h1 : (1 : Nat) = 2 ^ 0 := rfl
  rw [Nat.testBit_shiftRight, Nat.testBit_and, Nat.testBit_and, Nat.testBit_shiftRight,
      h2, h1, Nat.testBit_two_pow, Nat.testBit_two_pow]
  cases i with
  | zero => simp
  | succ n => simp

/-- Writing the edit buffer of a synced state: the register is untouched and
only the buffer selected by bit 1 of the register changes. -/
theorem syncSet_edit_only (g : GPUState) (bf : List Nat) :
    (GPUState.setEditBuffer (g.getEditBuffer).1 bf).gpuRegister = g.gpuRegister ∧
    ((g.gpuRegister >>> 1) &&& 1 = 0 →
      (GPUState.setEditBuffer (g.getEditBuffer).1 bf).buffer1 = g.buffer1) ∧
    ((g.gpuRegister >>> 1) &&& 1 ≠ 0 →
      (GPUState.setEditBuffer (g.getEditBuffer).1 bf).buffer0 = g.buffer0) := by
  unfold GPUState.getEditBuffer GPUState.sync GPUState.setEditBuffer
  dsimp only
  rw [and_two_shiftRight_one]
  by_cases hb : (g.gpuRegister >>> 1) &&& 1 = 0
  · rw [if_pos hb]
    exact ⟨rfl, fun _ => rfl, fun hc => absurd hb hc⟩
  · rw [if_neg hb]
    exact ⟨rfl, fun hc => absurd hc hb, fun _ => rfl⟩

/-- `_fill_grid` never touches the register or the non-edit buffer. -/
theorem fillGrid_edit_only (g : GPUState) (ops : List Int) :
    (g.fillGrid ops).gpuRegister = g.gpuRegister ∧
    ((g.gpuRegister >>> 1) &&& 1 = 0 → (g.fillGrid ops).buffer1 = g.buffer1) ∧
    ((g.gpuRegister >>> 1) &&& 1 ≠ 0 → (g.fillGrid ops).buffer0 = g.buffer0) := by
  unfold GPUState.fillGrid
  rcases ops with _ | ⟨a, _ | ⟨b, _ | ⟨c, _ | ⟨d, rest⟩⟩⟩⟩
  · exact ⟨rfl, fun _ => rfl, fun _ => rfl⟩
  · exact ⟨rfl, fun _ => rfl, fun _ => rfl⟩
  · exact ⟨rfl, fun _ => rfl, fun _ => rfl⟩
  · exact ⟨rfl, fun _ => rfl, fun _ => rfl⟩
  · exact syncSet_edit_only g _

/-- `_clear_grid` never touches the register or the non-edit buffer. -/
theorem clearGrid_edit_only (g : GPUState) (ops : List Int) :
    (g.clearGrid ops).gpuRegister = g.gpuRegister ∧
    ((g.gpuRegister >>> 1) &&& 1 = 0 → (g.clearGrid ops).buffer1 = g.buffer1) ∧
    ((g.gpuRegister >>> 1) &&& 1 ≠ 0 → (g.clearGrid ops).buffer0 = g.buffer0) := by
  unfold GPUState.clearGrid
  rcases ops with _ | ⟨a, _ | ⟨b, _ | ⟨c, _ | ⟨d, rest⟩⟩⟩⟩
  · exact ⟨rfl, fun _ => rfl, fun _ => rfl⟩
  · exact ⟨rfl, fun _ => rfl, fun _ => rfl⟩
  · exact ⟨rfl, fun _ => rfl, fun _ => rfl⟩
  · exact ⟨rfl, fun _ => rfl, fun _ => rfl⟩
  · exact syncSet_edit_only g _

/-- `_draw_line` never touches the register or the non-edit buffer. -/
theorem drawLine_edit_only (g : GPUState) (ops : List Int) :
    (g.drawLine ops).gpuRegister = g.gpuRegister ∧
    ((g.gpuRegister >>> 1) &&& 1 = 0 → (g.drawLine ops).buffer1 = g.buffer1) ∧
    ((g.gpuRegister >>> 1) &&& 1 ≠ 0 → (g.drawLine ops).buffer0 = g.buffer0) := by
  unfold GPUState.drawLine
  rcases ops with _ | ⟨a, _ | ⟨b, _ | ⟨c, _ | ⟨d, rest⟩⟩⟩⟩
  · exact ⟨rfl, fun _ => rfl, fun _ => rfl⟩
  · exact ⟨rfl, fun _ => rfl, fun _ => rfl⟩
  · exact ⟨rfl, fun _ => rfl, fun _ => rfl⟩
  · exact ⟨rfl, fun _ => rfl, fun _ => rfl⟩
  · dsimp only
    split
    · exact syncSet_edit_only g _
    · exact syncSet_edit_only g _

/-- `_load_sprite` only touches the sprite table. -/
theorem loadSprite_edit_only (g : GPUState) (ops : List Int) :
    (g.loadSprite ops).gpuRegister = g.gpuRegister ∧
    ((g.gpuRegister >>> 1) &&& 1 = 0 → (g.loadSprite ops).buffer1 = g.buffer1) ∧
    ((g.gpuRegister >>> 1) &&& 1 ≠ 0 → (g.loadSprite ops).buffer0 = g.buffer0) := by
  unfold GPUState.loadSprite
  rcases ops with _ | ⟨a, _ | ⟨b, rest⟩⟩ <;> exact ⟨rfl, fun _ => rfl, fun _ => rfl⟩

/-- `_draw_sprite` never touches the register or the non-edit buffer. -/
theorem drawSprite_edit_only (g : GPUState) (ops : List Int) :
    (g.drawSprite ops).gpuRegister = g.gpuRegister ∧
    ((g.gpuRegister >>> 1) &&& 1 = 0 → (g.drawSprite ops).buffer1 = g.buffer1) ∧
    ((g.gpuRegister >>> 1) &&& 1 ≠ 0 → (g.drawSprite ops).buffer0 = g.buffer0) := by
  unfold GPUState.drawSprite
  rcases ops with _ | ⟨a, _ | ⟨b, _ | ⟨c, rest⟩⟩⟩
  · exact ⟨rfl, fun _ => rfl, fun _ => rfl⟩
  · exact ⟨rfl, fun _ => rfl, fun _ => rfl⟩
  · exact ⟨rfl, fun _ => rfl, fun _ => rfl⟩
  · dsimp only
    split
    · exact ⟨rfl, fun _ => rfl, fun _ => rfl⟩
    · exact syncSet_edit_only g _

/-- `_load_text` only touches the text table. -/
theorem loadText_edit_only (g : GPUState) (ops : List Int) :
    (g.loadText ops).gpuRegister = g.gpuRegister ∧
    ((g.gpuRegister >>> 1) &&& 1 = 0 → (g.loadText ops).buffer1 = g.buffer1) ∧
    ((g.gpuRegister >>> 1) &&& 1 ≠ 0 → (g.loadText ops).buffer0 = g.buffer0) := by
  unfold GPUState.loadText
  rcases ops with _ | ⟨a, _ | ⟨b, rest⟩⟩ <;> exact ⟨rfl, fun _ => rfl, fun _ => rfl⟩

/-- `_draw_text` never touches the register or the non-edit buffer. -/
theorem drawText_edit_only (g : GPUState) (ops : List Int) :
    (g.drawText ops).gpuRegister = g.gpuRegister ∧
    ((g.gpuRegister >>> 1) &&& 1 = 0 → (g.drawText ops).buffer1 = g.buffer1) ∧
    ((g.gpuRegister >>> 1) &&& 1 ≠ 0 → (g.drawText ops).buffer0 = g.buffer0) := by
  unfold GPUState.drawText
  rcases ops with _ | ⟨a, _ | ⟨b, _ | ⟨c, rest⟩⟩⟩
  · exact ⟨rfl, fun _ => rfl, fun _ => rfl⟩
  · exact ⟨rfl, fun _ => rfl, fun _ => rfl⟩
  · exact ⟨rfl, fun _ => rfl, fun _ => rfl⟩
  · dsimp only
    split
    · exact ⟨rfl, fun _ => rfl, fun _ => rfl⟩
    · exact syncSet_edit_only g _

/-- `_scroll_buffer` never touches the register or the non-edit buffer. -/
theorem scrollBuffer_edit_only (g : GPUState) (ops : List Int) :
    (g.scrollBuffer ops).gpuRegister = g.gpuRegister ∧
    ((g.gpuRegister >>> 1) &&& 1 = 0 → (g.scrollBuffer ops).buffer1 = g.buffer1) ∧
    ((g.gpuRegister >>> 1) &&& 1 ≠ 0 → (g.scrollBuffer ops).buffer0 = g.buffer0) := by
  unfold GPUState.scrollBuffer
  rcases ops with _ | ⟨a, _ | ⟨b, rest⟩⟩
  · exact ⟨rfl, fun _ => rfl, fun _ => rfl⟩
  · exact ⟨rfl, fun _ => rfl, fun _ => rfl⟩
  · exact syncSet_edit_only g _

/-- `execute_command` never touches the register, and writes only the edit
buffer selected by bit 1 of the register (the unknown-opcode branch changes
nothing). -/
theorem executeCommand_edit_only (g : GPUState) (cmd : String) (ops : List Int) :
    (g.executeCommand cmd ops).1.gpuRegister = g.gpuRegister ∧
    ((g.gpuRegister >>> 1) &&& 1 = 0 →
      (g.executeCommand cmd ops).1.buffer1 = g.buffer1) ∧
    ((g.gpuRegister >>> 1) &&& 1 ≠ 0 →
      (g.executeCommand cmd ops).1.buffer0 = g.buffer0) := by
  unfold GPUState.executeCommand
  dsimp only
  split_ifs
  · exact drawLine_edit_only _ ops
  · exact fillGrid_edit_only _ ops
  · exact clearGrid_edit_only _ ops
  · exact loadSprite_edit_only _ ops
  · exact drawSprite_edit_only _ ops
  · exact loadText_edit_only _ ops
  · exact drawText_edit_only _ ops
  · exact scrollBuffer_edit_only _ ops
  · exact ⟨rfl, fun _ => rfl, fun _ => rfl⟩

/-- C9: after writing any value to the GPU control register,
`get_display_buffer` returns `buffer_k` for `k = gpu_register & 1`,
`get_edit_buffer` returns `buffer_j` for `j = (gpu_register >> 1) & 1`, and
every subsequent command leaves the register and the non-edit buffer
`buffer_(1-j)` unchanged — so all drawing targets `buffer_j`. -/
theorem gpu_register_selects_buffers (g : GPUState) (v : Int) :
    ((g.setGpuRegister v).getDisplayBuffer).2 =
      (if (g.setGpuRegister v).gpuRegister &&& 1 = 0 then (g.setGpuRegister v).buffer0
       else (g.setGpuRegister v).buffer1) ∧
    ((g.setGpuRegister v).getEditBuffer).2 =
      (if ((g.setGpuRegister v).gpuRegister >>> 1) &&& 1 = 0 then (g.setGpuRegister v).buffer0
       else (g.setGpuRegister v).buffer1) ∧
    (∀ cmd ops,
      ((g.setGpuRegister v).executeCommand cmd ops).1.gpuRegister =
        (g.setGpuRegister v).gpuRegister ∧
      (((g.setGpuRegister v).gpuRegister >>> 1) &&& 1 = 0 →
        ((g.setGpuRegister v).executeCommand cmd ops).1.buffer1 =
          (g.setGpuRegister v).buffer1) ∧
      (((g.setGpuRegister v).gpuRegister >>> 1) &&& 1 ≠ 0 →
        ((g.setGpuRegister v).executeCommand cmd ops).1.buffer0 =
          (g.setGpuRegister v).buffer0)) := by
  refine ⟨?_, ?_, ?_⟩
  · unfold GPUState.setGpuRegister GPUState.getDisplayBuffer GPUState.sync
    dsimp only
  · unfold GPUState.setGpuRegister GPUState.getEditBuffer GPUState.sync
    dsimp only
    rw [and_two_shiftRight_one]
  · intro cmd ops
    exact executeCommand_edit_only (g.setGpuRegister v) cmd ops

/-- Concrete run of `gpu_register_selects_buffers`: after writing 3 to the
register, the display buffer is `buffer1` and a DRGRD command leaves `buffer0`
untouched. -/
theorem gpu_register_selects_buffers_witness :
    ((mkGPU.setGpuRegister 3).getDisplayBuffer).2 = (mkGPU.setGpuRegister 3).buffer1 ∧
    ((mkGPU.setGpuRegister 3).executeCommand "DRGRD" [0, 0, 4, 4]).1.buffer0 =
      (mkGPU.setGpuRegister 3).buffer0 := by
  refine ⟨?_, ?_⟩
  · rw [(gpu_register_selects_buffers mkGPU 3).1, if_neg (by decide)]
  · exact ((gpu_register_selects_buffers mkGPU 3).2.2 "DRGRD" [0, 0, 4, 4]).2.2
      (by decide)

/-! ### C7 helpers -/

/-- `_find_best_fit_in_bucket`'s loop returns nothing iff it started with
nothing and no scanned segment is large enough. -/
theorem bestFitLoop_none_iff (required : Int) :
    ∀ (l : List Seg) (best : Option Seg),
      bestFitLoop required l best = none ↔
        (best = none ∧ ∀ s ∈ l, s.size < required) := by
  intro l
  induction l with
  | nil =>
    intro best
    unfold bestFitLoop
    simp
  | cons s rest ih =>
    intro best
    unfold bestFitLoop
    cases best with
    | none =>
      by_cases hle : required ≤ s.size
      · rw [if_pos ⟨hle, rfl⟩]
        by_cases hex : s.size = required
        · rw [if_pos hex]
          constructor
          · intro hc; cases hc
          · rintro ⟨-, hall⟩
            exact absurd (hall s (List.mem_cons_self s rest)) (by omega)
        · rw [if_neg hex, ih (some s)]
          constructor
          · rintro ⟨hc, -⟩; cases hc
          · rintro ⟨-, hall⟩
            exact absurd (hall s (List.mem_cons_self s rest)) (by omega)
      · rw [if_neg (fun hc => hle hc.1), ih none]
        constructor
        · rintro ⟨-, hall⟩
          exact ⟨rfl, fun t ht => by
            rcases List.mem_cons.mp ht with heq | hmem
            · subst heq; omega
            · exact hall t hmem⟩
        · rintro ⟨-, hall⟩
          exact ⟨rfl, fun t ht => hall t (List.mem_cons_of_mem s ht)⟩
    | some b =>
      constructor
      · intro hc
        by_cases hcond : required ≤ s.size ∧
            (decide (s.size < b.size)) = true
        · rw [if_pos hcond] at hc
          by_cases hex : s.size = required
          · rw [if_pos hex] at hc; cases hc
          · rw [if_neg hex, ih (some s)] at hc
            exact absurd hc.1 (by simp)
        · rw [if_neg hcond, ih (some b)] at hc
          exact absurd hc.1 (by simp)
      · rintro ⟨hc, -⟩; cases hc

/-- `_find_best_fit_in_bucket` returns nothing iff no segment of the bucket is
large enough. -/
theorem findBestFitInBucket_none_iff (m : MMState) (b : Nat) (required : Int) :
    m.findBestFitInBucket b required = none ↔ ∀ s ∈ m.bucket b, s.size < required := by
  unfold MMState.findBestFitInBucket
  rw [bestFitLoop_none_iff]
  simp

/-- The fallback loop returns nothing iff no scanned bucket holds a segment
large enough. -/
theorem searchLargerBuckets_none_iff (m : MMState) (required : Int) :
    ∀ (l : List Nat),
      searchLargerBuckets m required l = none ↔
        ∀ b ∈ l, ∀ s ∈ m.bucket b, s.size < required := by
  intro l
  induction l with
  | nil =>
    unfold searchLargerBuckets
    simp
  | cons b rest ih =>
    unfold searchLargerBuckets
    by_cases hne : m.bucket b ≠ []
    · rw [if_pos hne]
      rcases hfb : m.findBestFitInBucket b required with _ | s
      · rw [ih]
        have hb := (findBestFitInBucket_none_iff m b required).mp hfb
        constructor
        · intro hall
          intro b' hb'
          rcases List.mem_cons.mp hb' with heq | hmem
          · subst heq; exact hb
          · exact hall b' hmem
        · intro hall b' hb'
          exact hall b' (List.mem_cons_of_mem b hb')
      · constructor
        · intro hc; cases hc
        · intro hall
          have := (findBestFitInBucket_none_iff m b required).mpr
            (hall b (List.mem_cons_self b rest))
          rw [hfb] at this; cases this
    · rw [if_neg hne]
      rw [ih]
      push_neg at hne
      constructor
      · intro hall b' hb'
        rcases List.mem_cons.mp hb' with heq | hmem
        · subst heq; rw [hne]; intro s hs; cases hs
        · exact hall b' hmem
      · intro hall b' hb'
        exact hall b' (List.mem_cons_of_mem b hb')

/-- `_find_suitable_segment` reports no fit iff neither the target bucket nor
any larger bucket holds a segment large enough. -/
theorem findSuitableSegment_none_iff (m : MMState) (size : Int) :
    m.findSuitableSegment size = none ↔
      (∀ s ∈ m.bucket (getSizeBucket size), s.size < size) ∧
      (∀ b ∈ List.range' (getSizeBucket size + 1) (4 - (getSizeBucket size + 1)),
        ∀ s ∈ m.bucket b, s.size < size) := by
  unfold MMState.findSuitableSegment
  dsimp only
  rcases hfb : m.findBestFitInBucket (getSizeBucket size) size with _ | s
  · simp only [hfb, searchLargerBuckets_none_iff]
    have hb := (findBestFitInBucket_none_iff m _ size).mp hfb
    constructor
    · intro hall; exact ⟨hb, hall⟩
    · intro hall; exact hall.2
  · simp only [hfb]
    constructor
    · intro hc; cases hc
    · intro hall
      have := (findBestFitInBucket_none_iff m _ size).mpr hall.1
      rw [hfb] at this; cases this

/-- A segment of any bucket is a free segment. -/
theorem mem_freeSegs_of_mem_getD :
    ∀ (ls : List (List Seg)) (i : Nat) (s : Seg), s ∈ ls.getD i [] →
      s ∈ ls.foldr (fun a b => a ++ b) [] := by
  intro ls
  induction ls with
  | nil => intro i s h; cases i <;> cases h
  | cons hd tl ih =>
    intro i s h
    cases i with
    | zero => exact List.mem_append_left _ h
    | succ j => exact List.mem_append_right _ (ih j s h)

/-- Every free segment lives in some bucket slot. -/
theorem exists_bucket_of_mem_freeSegs :
    ∀ (ls : List (List Seg)) (s : Seg), s ∈ ls.foldr (fun a b => a ++ b) [] →
      ∃ i, i < ls.length ∧ s ∈ ls.getD i [] := by
  intro ls
  induction ls with
  | nil => intro s h; cases h
  | cons hd tl ih =>
    intro s h
    rcases List.mem_append.mp h with hh | ht
    · exact ⟨0, Nat.succ_pos _, hh⟩
    · rcases ih s ht with ⟨j, hj, hmem⟩
      exact ⟨j + 1, Nat.succ_lt_succ hj, hmem⟩

/-- `_get_size_bucket` is monotone on positive sizes. -/
theorem getSizeBucket_mono (a b : Int) (ha : 1 ≤ a) (hab : a ≤ b) :
    getSizeBucket a ≤ getSizeBucket b := by
  unfold getSizeBucket
  split_ifs <;> omega

/-- Bridge: for a positive request on a well-bucketed state, the two-part
search condition is exactly "no free segment is large enough". -/
theorem no_fit_bridge (m : MMState) (size : Int) (hwb : m.wellBucketed)
    (hpos : 1 ≤ size) :
    ((∀ s ∈ m.bucket (getSizeBucket size), s.size < size) ∧
      (∀ b ∈ List.range' (getSizeBucket size + 1) (4 - (getSizeBucket size + 1)),
        ∀ s ∈ m.bucket b, s.size < size)) ↔
      ∀ s ∈ m.freeSegs, s.size < size := by
  constructor
  · rintro ⟨htgt, hlarger⟩ s hs
    rcases exists_bucket_of_mem_freeSegs m.buckets s hs with ⟨i, hi, hmem⟩
    have hi4 : i < 4 := hwb.1 ▸ hi
    have hcls : getSizeBucket s.size = i := hwb.2 i hi4 s hmem
    by_contra hge
    push_neg at hge
    have hmono : getSizeBucket size ≤ i := hcls ▸ getSizeBucket_mono size s.size hpos hge
    rcases Nat.eq_or_lt_of_le hmono with heq | hlt
    · exact absurd (htgt s (heq ▸ hmem)) (by omega)
    · have hbm : i ∈ List.range' (getSizeBucket size + 1) (4 - (getSizeBucket size + 1)) :=
        List.mem_range'_1.mpr ⟨hlt, by omega⟩
      exact absurd (hlarger i hbm s hmem) (by omega)
  · intro hall
    refine ⟨fun s hs => hall s (mem_freeSegs_of_mem_getD m.buckets _ s hs), ?_⟩
    intro b _ s hs
    exact hall s (mem_freeSegs_of_mem_getD m.buckets b s hs)

/-- `allocate_memory` reports no fit iff the segment search does. -/
theorem allocateMemory_none_iff (m : MMState) (size : Int) :
    (m.allocateMemory size).1 = none ↔ m.findSuitableSegment size = none := by
  unfold MMState.allocateMemory
  rcases hf : m.findSuitableSegment size with _ | seg
  · simp [hf]
  · simp [hf]

/-- C7 counterexample: a size-0 request is classified into the largest bucket
and the fallback searches no further, so `allocate_memory` reports no fit even
though the free list holds a segment easily large enough (the claim's iff
fails as stated for non-positive sizes). -/
theorem size_zero_allocation_misses_fit :
    ((mkMM 0x1000 16).allocateMemory 0).1 = none ∧
      ∃ s ∈ (mkMM 0x1000 16).freeSegs, (0 : Int) ≤ s.size := by
  refine ⟨by decide, ⟨⟨0x1000, 0x100F⟩, by decide, by decide⟩⟩

/-- C7 (amended to positive requests): for every well-bucketed manager state
and requested size ≥ 1, `allocate_memory` returns `None` iff no free segment
in the union of all size buckets has size at least the requested size;
equivalently, whenever some free segment is large enough the allocation
returns a start address. -/
theorem allocation_none_iff_no_fit (m : MMState) (size : Int)
    (hwb : m.wellBucketed) (hpos : 1 ≤ size) :
    (m.allocateMemory size).1 = none ↔ ∀ s ∈ m.freeSegs, s.size < size := by
  rw [allocateMemory_none_iff, findSuitableSegment_none_iff]
  exact no_fit_bridge m size hwb hpos

/-- Concrete run of `allocation_none_iff_no_fit`: a fresh 16-word arena,
request 32 — the iff certifies the `None` answer by the absence of any
32-word free segment. -/
theorem allocation_none_iff_no_fit_witness :
    (((mkMM 0x1000 16).allocateMemory 32).1 = none ↔
      ∀ s ∈ (mkMM 0x1000 16).freeSegs, s.size < 32) :=
  allocation_none_iff_no_fit (mkMM 0x1000 16) 32
    (by constructor
        · decide
        · intro i hi
          interval_cases i <;> decide)
    (by decide)

/-- C2 counterexample: 27 local allocations from a fresh allocator force
`_spill_and_allocate`, which spills `v0` without deleting its
`symbol_to_register` entry and rebinds register 31 to `v26`; the bi-maps are
then not inverses (`v0` still claims register 31). -/
theorem spill_reallocate_breaks_bimap_inverse :
    alookup (runRAOps trace27).symbolToRegister (SymName.user "v0") = some 31 ∧
    alookup (runRAOps trace27).regToSymbol 31 = some (SymName.user "v26") := by
  decide

/-! ### C2 helpers: the forward bi-map invariant -/

/-- Transfer `regMapSound` across states with identical bi-maps. -/
theorem sound_of_maps_eq {s t : RAState} (hr : t.regToSymbol = s.regToSymbol)
    (hs : t.symbolToRegister = s.symbolToRegister) (h : s.regMapSound) :
    t.regMapSound := by
  intro r sym hl
  rw [hr] at hl
  rw [hs]
  exact h r sym hl

/-- Transfer `tempNamesFresh` across states with identical symbol map and
counter. -/
theorem fresh_of_maps_eq {s t : RAState} (hs : t.symbolToRegister = s.symbolToRegister)
    (hc : t.tempCounter = s.tempCounter) (h : s.tempNamesFresh) :
    t.tempNamesFresh := by
  intro n r hl
  rw [hs] at hl
  rw [hc]
  exact h n r hl

/-- A fresh temp name is unbound. -/
theorem fresh_not_bound {s : RAState} (h : s.tempNamesFresh) :
    alookup s.symbolToRegister (SymName.temp s.tempCounter) = none := by
  rcases hl : alookup s.symbolToRegister (SymName.temp s.tempCounter) with _ | r
  · rfl
  · exact absurd (h _ _ hl) (by omega)

/-- `_assign_register_to_symbol` preserves the forward invariant provided the
symbol is unbound or already bound to that very register. -/
theorem assign_pres {s : RAState} (r : Nat) (sym : SymName) (h1 : s.regMapSound)
    (h2 : alookup s.symbolToRegister sym = none ∨
      alookup s.symbolToRegister sym = some r) :
    (s.assign r sym).regMapSound := by
  intro r' sym' hl
  unfold RAState.assign at hl ⊢
  dsimp only at hl ⊢
  by_cases hr : r' = r
  · subst hr
    rw [alookup_aset_self] at hl
    injection hl with hh
    subst hh
    exact alookup_aset_self _ _ _
  · rw [alookup_aset_ne _ _ _ _ hr] at hl
    by_cases hsym : sym' = sym
    · subst hsym
      have hs := h1 r' sym' hl
      rcases h2 with h2 | h2
      · rw [hs] at h2; cases h2
      · rw [hs] at h2
        injection h2 with hh
        exact absurd hh hr
    · rw [alookup_aset_ne _ _ _ _ hsym]
      exact h1 r' sym' hl

/-- Assigning a user-named symbol cannot break temp-name freshness. -/
theorem assign_fresh_user {s : RAState} (r : Nat) (name : String)
    (h : s.tempNamesFresh) : (s.assign r (SymName.user name)).tempNamesFresh := by
  intro n r' hl
  unfold RAState.assign at hl
  dsimp only at hl
  rw [alookup_aset_ne _ _ _ _ (by intro hh; cases hh)] at hl
  exact h n r' hl

/-- Binding the temp named by the counter right after bumping it preserves
both invariants. -/
theorem temp_bind_pres (s : RAState) (r : Nat) (h1 : s.regMapSound)
    (h2 : s.tempNamesFresh) :
    (({ s with tempCounter := s.tempCounter + 1 } : RAState).assign r
        (SymName.temp s.tempCounter)).regMapSound ∧
    (({ s with tempCounter := s.tempCounter + 1 } : RAState).assign r
        (SymName.temp s.tempCounter)).tempNamesFresh := by
  constructor
  · exact assign_pres r _ h1 (Or.inl (fresh_not_bound h2))
  · intro n r' hl
    unfold RAState.assign at hl ⊢
    dsimp only at hl ⊢
    by_cases hn : n = s.tempCounter
    · omega
    · rw [alookup_aset_ne _ _ _ _ (by intro hh; injection hh with hh2; exact hn hh2)] at hl
      have := h2 n r' hl
      omega

/-- `_free_register_internal` without symbol deletion leaves the bi-maps and
the counter alone. -/
theorem freeRegisterInternal_false_maps (s : RAState) (register : Nat) :
    (s.freeRegisterInternal register false).regToSymbol = s.regToSymbol ∧
    (s.freeRegisterInternal register false).symbolToRegister = s.symbolToRegister ∧
    (s.freeRegisterInternal register false).tempCounter = s.tempCounter := by
  unfold RAState.freeRegisterInternal
  rcases h : alookup s.regToSymbol register with _ | sym <;>
    simp only [h] <;> exact ⟨rfl, rfl, rfl⟩

/-- `_free_register_internal` with symbol deletion drops a matched pair from
both maps, preserving both invariants. -/
theorem freeRegisterInternal_true_pres (s : RAState) (register : Nat)
    (h1 : s.regMapSound) (h2 : s.tempNamesFresh) :
    (s.freeRegisterInternal register true).regMapSound ∧
    (s.freeRegisterInternal register true).tempNamesFresh := by
  unfold RAState.freeRegisterInternal
  rcases h : alookup s.regToSymbol register with _ | sym
  · simp only [h]
    exact ⟨h1, h2⟩
  · simp only [h]
    constructor
    · intro r' sym' hl
      dsimp only [RAState.markAvailable, RAState.markConsumed] at hl ⊢
      obtain ⟨hne, hl2⟩ := alookup_aerase_some hl
      have hs := h1 r' sym' hl2
      by_cases hsym : sym' = sym
      · subst hsym
        have hreg := h1 register sym' h
        rw [hs] at hreg
        injection hreg with hh
        exact absurd hh hne
      · rw [alookup_aerase_ne _ _ _ hsym]
        exact hs
    · intro n r' hl
      dsimp only [RAState.markAvailable, RAState.markConsumed] at hl ⊢
      obtain ⟨-, hl2⟩ := alookup_aerase_some hl
      exact h2 n r' hl2

/-- The parameter-cursor loop never touches the bi-maps or the counter. -/
theorem allocParamLoop_maps :
    ∀ (fuel : Nat) (s : RAState),
      (allocParamLoop s fuel).1.regToSymbol = s.regToSymbol ∧
      (allocParamLoop s fuel).1.symbolToRegister = s.symbolToRegister ∧
      (allocParamLoop s fuel).1.tempCounter = s.tempCounter := by
  intro fuel
  induction fuel with
  | zero => intro s; exact ⟨rfl, rfl, rfl⟩
  | succ n ih =>
    intro s
    unfold allocParamLoop
    dsimp only
    by_cases h1 : s.nextParam < 31
    · rw [if_pos h1]
      by_cases h2 : (alookup s.regToSymbol s.nextParam).isNone = true ∧
          ¬ reservedRegisters.contains s.nextParam = true
      · rw [if_pos h2]
        exact ⟨rfl, rfl, rfl⟩
      · rw [if_neg h2]
        exact ih _
    · rw [if_neg h1]
      exact ⟨rfl, rfl, rfl⟩

/-- The local-cursor loop never touches the bi-maps or the counter. -/
theorem allocLocalLoop_maps :
    ∀ (fuel : Nat) (s : RAState) (available : List Nat),
      (allocLocalLoop s available fuel).1.regToSymbol = s.regToSymbol ∧
      (allocLocalLoop s available fuel).1.symbolToRegister = s.symbolToRegister ∧
      (allocLocalLoop s available fuel).1.tempCounter = s.tempCounter := by
  intro fuel
  induction fuel with
  | zero => intro s available; exact ⟨rfl, rfl, rfl⟩
  | succ n ih =>
    intro s available
    unfold allocLocalLoop
    dsimp only
    by_cases h1 : 6 ≤ s.nextLocal
    · rw [if_pos h1]
      by_cases h2 : (alookup s.regToSymbol s.nextLocal).isNone = true ∧
          ¬ reservedRegisters.contains s.nextLocal = true ∧
          available.contains s.nextLocal = true ∧ ¬ s.isLive s.nextLocal = true
      · rw [if_pos h2]
        exact ⟨rfl, rfl, rfl⟩
      · rw [if_neg h2]
        exact ih _ available
    · rw [if_neg h1]
      exact ⟨rfl, rfl, rfl⟩

/-- `spill_symbol` never touches the bi-maps or the counter (the spilled
pair stays behind — the root of the C2 failure). -/
theorem spillSymbolOp_maps (s : RAState) (sym : SymName) :
    (s.spillSymbolOp sym).1.regToSymbol = s.regToSymbol ∧
    (s.spillSymbolOp sym).1.symbolToRegister = s.symbolToRegister ∧
    (s.spillSymbolOp sym).1.tempCounter = s.tempCounter := by
  unfold RAState.spillSymbolOp
  rcases h : alookup s.symbolToRegister sym with _ | reg
  · simp only [h]
    exact ⟨trivial, trivial, trivial⟩
  · simp only [h]
    rcases ha : (s.mm.allocateMemory 1).1 with _ | addr
    · simp only [ha]
      exact ⟨trivial, trivial, trivial⟩
    · simp only [ha]
      exact ⟨(freeRegisterInternal_false_maps _ reg).1,
             (freeRegisterInternal_false_maps _ reg).2.1,
             (freeRegisterInternal_false_maps _ reg).2.2⟩

/-- `_spill_and_allocate` for an unbound user symbol preserves both invariants
and, on success, binds the symbol to the returned register. -/
theorem spillAndAllocate_pres (s : RAState) (name : String) (p : Bool)
    (h1 : s.regMapSound) (h2 : s.tempNamesFresh)
    (hnone : alookup s.symbolToRegister (SymName.user name) = none) :
    (s.spillAndAllocate (SymName.user name) p).1.regMapSound ∧
    (s.spillAndAllocate (SymName.user name) p).1.tempNamesFresh ∧
    (∀ reg, (s.spillAndAllocate (SymName.user name) p).2 = some reg →
      alookup (s.spillAndAllocate (SymName.user name) p).1.symbolToRegister
        (SymName.user name) = some reg) := by
  unfold RAState.spillAndAllocate
  dsimp only
  generalize (if p = true then List.range' 6 25 else (List.range' 7 25).reverse) = pool
  have body : ∀ r : Nat,
      ((match alookup s.regToSymbol r with
        | none => (s, none)
        | some lruSymbol =>
          let sp := s.spillSymbolOp lruSymbol
          if sp.2 then
            let s3 := sp.1.assign r (SymName.user name)
            let s4 := s3.markUsed r
            let s5 := { s4 with scopeDepth := aset s4.scopeDepth r (s4.availStack.length - 1) }
            (s5, some r)
          else (sp.1, none) : RAState × Option Nat)).1.regMapSound ∧
      ((match alookup s.regToSymbol r with
        | none => (s, none)
        | some lruSymbol =>
          let sp := s.spillSymbolOp lruSymbol
          if sp.2 then
            let s3 := sp.1.assign r (SymName.user name)
            let s4 := s3.markUsed r
            let s5 := { s4 with scopeDepth := aset s4.scopeDepth r (s4.availStack.length - 1) }
            (s5, some r)
          else (sp.1, none) : RAState × Option Nat)).1.tempNamesFresh ∧
      (∀ reg,
        ((match alookup s.regToSymbol r with
          | none => (s, none)
          | some lruSymbol =>
            let sp := s.spillSymbolOp lruSymbol
            if sp.2 then
              let s3 := sp.1.assign r (SymName.user name)
              let s4 := s3.markUsed r
              let s5 := { s4 with scopeDepth := aset s4.scopeDepth r (s4.availStack.length - 1) }
              (s5, some r)
            else (sp.1, none) : RAState × Option Nat)).2 = some reg →
        alookup ((match alookup s.regToSymbol r with
          | none => (s, none)
          | some lruSymbol =>
            let sp := s.spillSymbolOp lruSymbol
            if sp.2 then
              let s3 := sp.1.assign r (SymName.user name)
              let s4 := s3.markUsed r
              let s5 := { s4 with scopeDepth := aset s4.scopeDepth r (s4.availStack.length - 1) }
              (s5, some r)
            else (sp.1, none) : RAState × Option Nat)).1.symbolToRegister
          (SymName.user name) = some reg) := by
    intro r
    rcases ha : alookup s.regToSymbol r with _ | lruSym <;> simp only [ha]
    · exact ⟨h1, h2, fun reg hc => by cases hc⟩
    · obtain ⟨m1, m2, m3⟩ := spillSymbolOp_maps s lruSym
      have h1s : (s.spillSymbolOp lruSym).1.regMapSound := sound_of_maps_eq m1 m2 h1
      have h2s : (s.spillSymbolOp lruSym).1.tempNamesFresh := fresh_of_maps_eq m2 m3 h2
      have hns : alookup (s.spillSymbolOp lruSym).1.symbolToRegister
          (SymName.user name) = none := by rw [m2]; exact hnone
      split
      · refine ⟨sound_of_maps_eq rfl rfl (assign_pres r _ h1s (Or.inl hns)),
                fresh_of_maps_eq rfl rfl (assign_fresh_user r name h2s), ?_⟩
        intro reg hc
        injection hc with hh
        subst hh
        exact alookup_aset_self _ _ _
      · exact ⟨h1s, h2s, fun reg hc => by cases hc⟩
  rcases ht : lruScan s pool true with _ | r
  · simp only [ht]
    rcases hf : lruScan s pool false with _ | r
    · simp only [hf]
      exact ⟨h1, h2, fun reg hc => by cases hc⟩
    · simp only [hf]
      exact body r
  · simp only [ht]
    exact body r

/-- `allocate_register_for_symbol` (user symbols) preserves both invariants
and, on success, binds the symbol to the returned register. -/
theorem allocateRegisterForSymbol_pres (s : RAState) (name : String) (p : Bool)
    (h1 : s.regMapSound) (h2 : s.tempNamesFresh) :
    (s.allocateRegisterForSymbol (SymName.user name) p).1.regMapSound ∧
    (s.allocateRegisterForSymbol (SymName.user name) p).1.tempNamesFresh ∧
    (∀ reg, (s.allocateRegisterForSymbol (SymName.user name) p).2 = some reg →
      alookup (s.allocateRegisterForSymbol (SymName.user name) p).1.symbolToRegister
        (SymName.user name) = some reg) := by
  unfold RAState.allocateRegisterForSymbol
  rcases hb : alookup s.symbolToRegister (SymName.user name) with _ | r0
  · simp only [hb]
    have cursor : ∀ t : RAState × Option Nat,
        t.1.regToSymbol = s.regToSymbol → t.1.symbolToRegister = s.symbolToRegister →
        t.1.tempCounter = s.tempCounter →
        ((match t.2 with
          | some reg =>
            let s3 := t.1.assign reg (SymName.user name)
            let s4 := s3.markUsed reg
            let s5 := { s4 with scopeDepth := aset s4.scopeDepth reg (s4.availStack.length - 1) }
            (s5, some reg)
          | none => t.1.spillAndAllocate (SymName.user name) p : RAState × Option Nat)).1.regMapSound ∧
        ((match t.2 with
          | some reg =>
            let s3 := t.1.assign reg (SymName.user name)
            let s4 := s3.markUsed reg
            let s5 := { s4 with scopeDepth := aset s4.scopeDepth reg (s4.availStack.length - 1) }
            (s5, some reg)
          | none => t.1.spillAndAllocate (SymName.user name) p : RAState × Option Nat)).1.tempNamesFresh ∧
        (∀ reg,
          ((match t.2 with
            | some reg =>
              let s3 := t.1.assign reg (SymName.user name)
              let s4 := s3.markUsed reg
              let s5 := { s4 with scopeDepth := aset s4.scopeDepth reg (s4.availStack.length - 1) }
              (s5, some reg)
            | none => t.1.spillAndAllocate (SymName.user name) p : RAState × Option Nat)).2 = some reg →
          alookup ((match t.2 with
            | some reg =>
              let s3 := t.1.assign reg (SymName.user name)
              let s4 := s3.markUsed reg
              let s5 := { s4 with scopeDepth := aset s4.scopeDepth reg (s4.availStack.length - 1) }
              (s5, some reg)
            | none => t.1.spillAndAllocate (SymName.user name) p : RAState × Option Nat)).1.symbolToRegister
            (SymName.user name) = some reg) := by
      rintro ⟨t1, topt⟩ m1 m2 m3
      dsimp only at m1 m2 m3 ⊢
      have h1t : t1.regMapSound := sound_of_maps_eq m1 m2 h1
      have h2t : t1.tempNamesFresh := fresh_of_maps_eq m2 m3 h2
      have hnt : alookup t1.symbolToRegister (SymName.user name) = none := by
        rw [m2]; exact hb
      rcases topt with _ | reg
      · exact spillAndAllocate_pres t1 name p h1t h2t hnt
      · refine ⟨sound_of_maps_eq rfl rfl (assign_pres reg _ h1t (Or.inl hnt)),
                fresh_of_maps_eq rfl rfl (assign_fresh_user reg name h2t), ?_⟩
        intro reg' hc
        injection hc with hh
        subst hh
        exact alookup_aset_self _ _ _
    cases p
    · obtain ⟨m1, m2, m3⟩ := allocLocalLoop_maps 32 s s.availTop
      exact cursor (allocLocalLoop s s.availTop 32) m1 m2 m3
    · obtain ⟨m1, m2, m3⟩ := allocParamLoop_maps 32 s
      exact cursor (allocParamLoop s 32) m1 m2 m3
  · simp only [hb]
    exact ⟨h1, h2, fun reg hc => hc⟩

/-- `_spill_lru_and_allocate` preserves both invariants (the fresh temp bound
to the victim register is new by freshness). -/
theorem spillLruAndAllocate_pres (s : RAState) (h1 : s.regMapSound)
    (h2 : s.tempNamesFresh) :
    (s.spillLruAndAllocate).1.regMapSound ∧
    (s.spillLruAndAllocate).1.tempNamesFresh := by
  unfold RAState.spillLruAndAllocate
  split
  · exact ⟨h1, h2⟩
  · rename_i lruReg heq
    rcases ha : alookup s.regToSymbol lruReg with _ | ls <;> simp only [ha]
    · split
      · exact ⟨sound_of_maps_eq rfl rfl (temp_bind_pres s lruReg h1 h2).1,
               fresh_of_maps_eq rfl rfl (temp_bind_pres s lruReg h1 h2).2⟩
      · exact ⟨h1, h2⟩
    · obtain ⟨m1, m2, m3⟩ := spillSymbolOp_maps s ls
      have h1t := sound_of_maps_eq m1 m2 h1
      have h2t := fresh_of_maps_eq m2 m3 h2
      split
      · exact ⟨sound_of_maps_eq rfl rfl
                 (temp_bind_pres (s.spillSymbolOp ls).1 lruReg h1t h2t).1,
               fresh_of_maps_eq rfl rfl
                 (temp_bind_pres (s.spillSymbolOp ls).1 lruReg h1t h2t).2⟩
      · exact ⟨h1t, h2t⟩

/-- `allocate_temporary_register` preserves both invariants. -/
theorem allocateTemporaryRegister_pres (s : RAState) (h1 : s.regMapSound)
    (h2 : s.tempNamesFresh) :
    (s.allocateTemporaryRegister).1.regMapSound ∧
    (s.allocateTemporaryRegister).1.tempNamesFresh := by
  unfold RAState.allocateTemporaryRegister
  dsimp only
  split
  · exact ⟨sound_of_maps_eq rfl rfl (temp_bind_pres s _ h1 h2).1,
           fresh_of_maps_eq rfl rfl (temp_bind_pres s _ h1 h2).2⟩
  · exact spillLruAndAllocate_pres s h1 h2

/-- `access_symbol` (user lookup names) preserves both invariants. -/
theorem accessSymbol_pres (s : RAState) (name : String) (symInRam : Bool)
    (symAddr : Int) (h1 : s.regMapSound) (h2 : s.tempNamesFresh) :
    (s.accessSymbol (SymName.user name) symInRam symAddr).1.regMapSound ∧
    (s.accessSymbol (SymName.user name) symInRam symAddr).1.tempNamesFresh := by
  unfold RAState.accessSymbol
  split
  · exact ⟨h1, h2⟩
  · rename_i hb
    split
    · split
      rename_i st regOpt heq
      obtain ⟨p1, p2, p3⟩ := allocateRegisterForSymbol_pres s name false h1 h2
      rw [heq] at p1 p2 p3
      cases regOpt with
      | none => exact ⟨p1, p2⟩
      | some reg =>
        dsimp only
        have hb2 : alookup st.symbolToRegister (SymName.user name) = some reg :=
          p3 reg rfl
        split <;> split <;>
          exact ⟨sound_of_maps_eq rfl rfl (assign_pres reg _ p1 (Or.inr hb2)),
                 fresh_of_maps_eq rfl rfl (assign_fresh_user reg name p2)⟩
    · exact ⟨h1, h2⟩

/-- `free_temporary_register` preserves both invariants. -/
theorem freeTemporaryRegister_pres (s : RAState) (register : Nat)
    (h1 : s.regMapSound) (h2 : s.tempNamesFresh) :
    (s.freeTemporaryRegister register).regMapSound ∧
    (s.freeTemporaryRegister register).tempNamesFresh := by
  unfold RAState.freeTemporaryRegister
  split
  · have hp := freeRegisterInternal_true_pres
      { s.markConsumed register with
          tempRegs := sdel (s.markConsumed register).tempRegs register } register h1 h2
    dsimp only
    split
    · exact ⟨sound_of_maps_eq rfl rfl hp.1, fresh_of_maps_eq rfl rfl hp.2⟩
    · exact hp
  · exact ⟨h1, h2⟩

/-- Every public allocator operation preserves both invariants. -/
theorem applyRAOp_pres (s : RAState) (op : RAOp) (h1 : s.regMapSound)
    (h2 : s.tempNamesFresh) :
    (applyRAOp s op).regMapSound ∧ (applyRAOp s op).tempNamesFresh := by
  cases op with
  | allocSym name p =>
    exact ⟨(allocateRegisterForSymbol_pres s name p h1 h2).1,
           (allocateRegisterForSymbol_pres s name p h1 h2).2.1⟩
  | allocTemp => exact allocateTemporaryRegister_pres s h1 h2
  | access n inRam addr => exact accessSymbol_pres s n inRam addr h1 h2
  | spill name =>
    obtain ⟨m1, m2, m3⟩ := spillSymbolOp_maps s (SymName.user name)
    exact ⟨sound_of_maps_eq m1 m2 h1, fresh_of_maps_eq m2 m3 h2⟩
  | freeReg r =>
    obtain ⟨m1, m2, m3⟩ := freeRegisterInternal_false_maps s r
    exact ⟨sound_of_maps_eq m1 m2 h1, fresh_of_maps_eq m2 m3 h2⟩
  | freeTemp r => exact freeTemporaryRegister_pres s r h1 h2

/-- Both invariants hold after any operation sequence from a fresh
allocator. -/
theorem runRAOps_inv (ops : List RAOp) :
    (runRAOps ops).regMapSound ∧ (runRAOps ops).tempNamesFresh := by
  suffices hgen : ∀ (l : List RAOp) (t : RAState), t.regMapSound →
      t.tempNamesFresh →
      (l.foldl applyRAOp t).regMapSound ∧ (l.foldl applyRAOp t).tempNamesFresh by
    exact hgen ops initialRA (fun r sym h => by cases h) (fun n r h => by cases h)
  intro l
  induction l with
  | nil => intro t ht1 ht2; exact ⟨ht1, ht2⟩
  | cons op rest ih =>
    intro t ht1 ht2
    rw [List.foldl_cons]
    have hstep := applyRAOp_pres t op ht1 ht2
    exact ih _ hstep.1 hstep.2

/-- C2 (amended): after any sequence of allocate, access, spill and free
operations from a fresh allocator, the forward direction of bi-map
consistency holds: every register bound in `register_to_symbol` maps to a
symbol whose `symbol_to_register` entry is that same register.  The converse
direction is false — `spill_symbol` leaves the spilled symbol's
`symbol_to_register` entry behind (see the counterexample). -/
theorem register_bimap_forward_sound (ops : List RAOp) :
    (runRAOps ops).regMapSound :=
  (runRAOps_inv ops).1

/-- Concrete run of `register_bimap_forward_sound`: after one allocation the
binding of register 31 maps back. -/
theorem register_bimap_forward_sound_witness :
    alookup (runRAOps [RAOp.allocSym "x" false]).symbolToRegister
      (SymName.user "x") = some 31 :=
  register_bimap_forward_sound [RAOp.allocSym "x" false] 31 (SymName.user "x")
    (by decide)
end MCC
